import Mathlib

/-!
Workdeck Resource Planner: view-model transformation, API client and
dashboard controller.

A shallow embedding of `src/components/ResourcePlanner.jsx`.

Modelling conventions

* In `transformUserToTeamMember` and the definitions it uses, JavaScript
  numbers that hold hours are rationals (`ℚ`) and `dayHours` is a number:
  every arithmetic step is exact.  JSON cannot carry `NaN` or an infinity, and
  on numeric input the code never divides by zero (see
  `weeklyCapacity_ne_zero`), so the hour computations stay finite.
* The same hour computations are also given over an arbitrary number
  arithmetic (`NumberOps`), with `dayHours` any scalar of the payload and
  `parseFloat` applied to it: `NumberOps.weeklyCapacity` and
  `NumberOps.memberHours`.  The arithmetic of an engine, which rounds every
  operation to a double, is one `NumberOps`; the exact arithmetic is another
  (`exactOps`), at which these definitions give the figures of
  `transformUserToTeamMember` (`memberHours_exact`).  What depends on
  rounding or on `parseFloat` is stated for every `NumberOps`.
* A number that can be `NaN` in the code (anything derived from
  `new Date(...)`) is an `Option Int`, with `none` standing for `NaN`.
* An optional field is an `Option`; `undefined` and `null` both read as
  `none` where the code only tests truthiness or uses `?.`.
* Ids keep their JavaScript shape (`JSId`), because the code compares them
  with `===`, tests them with `||` and converts them to strings.
* Strings are Lean strings; `charCodes` gives their UTF-16 code units.
* `new Date()` is the parameter `now` (milliseconds since the epoch).
* A JSON payload is a `Json` tree where the code reads it untyped (the
  `result` envelope).  In a load, the body of the users read is a JSON tree
  whose arrays hold user records (`UsersBody`): it may be an array, an object
  with or without a `result`, or a primitive.  The bodies of the projects,
  offices and current-user reads are typed records, wrapped or bare
  (`Envelope`).
* An asynchronous function is run as a whole: `loadWorkdeckData` and
  `submitTaskAssignment` map the state at their start to the state they leave,
  given what the server answers; `beginLoad` is the state while the reads of
  a load are pending.
-/

namespace ResourcePlanner

/-! ## JavaScript primitives -/

/-- An id as it arrives in the JSON payload: absent, `null`, a string or an
integer number. -/
inductive JSId where
  | undefined
  | null
  | str (s : String)
  | num (n : Int)
  deriving DecidableEq, Repr

/-- Truthiness of an id: `undefined`, `null`, the empty string and `0` are falsy. -/
def JSId.truthy : JSId → Bool
  | .undefined => false
  | .null => false
  | .str s => decide (s ≠ "")
  | .num n => decide (n ≠ 0)

/-- `Number.prototype.toString` on an integer-valued number: its decimal
digits, with a leading minus sign when negative (exact for magnitudes below
`10^21`, where JavaScript does not switch to exponent notation). -/
def numberToString (n : Int) : String := toString n

/-- String conversion of an id inside a template literal. -/
def JSId.toStr : JSId → String
  | .undefined => "undefined"
  | .null => "null"
  | .str s => s
  | .num n => numberToString n

/-- JavaScript `a || b` on ids. -/
def JSId.orElse (a b : JSId) : JSId := if a.truthy then a else b

/-- Truthiness of an optional string: missing and empty are falsy. -/
def strTruthy : Option String → Bool
  | some s => decide (s ≠ "")
  | none => false

/-- JavaScript `s || d` for an optional string field and a string default. -/
def strOr (s : Option String) (d : String) : String :=
  match s with
  | some v => if v ≠ "" then v else d
  | none => d

/-- Truthiness of an optional number: missing and `0` are falsy. -/
def numTruthy : Option ℚ → Bool
  | some q => decide (q ≠ 0)
  | none => false

/-- JavaScript `x || d` for an optional numeric field and a numeric default. -/
def numOr (x : Option ℚ) (d : ℚ) : ℚ :=
  match x with
  | some q => if q ≠ 0 then q else d
  | none => d

/-- The characters removed by `String.prototype.trim`: ECMAScript WhiteSpace
and LineTerminator code points. -/
def isJSWhitespace (c : Char) : Bool :=
  let n := c.toNat
  n = 0x9 || n = 0xA || n = 0xB || n = 0xC || n = 0xD || n = 0x20 || n = 0xA0
    || n = 0x1680 || (0x2000 ≤ n && n ≤ 0x200A) || n = 0x2028 || n = 0x2029
    || n = 0x202F || n = 0x205F || n = 0x3000 || n = 0xFEFF

/-- Trim on a list of characters: drop white space from both ends. -/
def trimChars (l : List Char) : List Char :=
  ((l.dropWhile isJSWhitespace).reverse.dropWhile isJSWhitespace).reverse

/-- `String.prototype.trim`. -/
def jsTrim (s : String) : String := String.mk (trimChars s.data)

/-- UTF-16 code units of one character. -/
def utf16 (c : Char) : List Nat :=
  if c.toNat < 0x10000 then [c.toNat]
  else [0xD800 + (c.toNat - 0x10000) / 0x400, 0xDC00 + (c.toNat - 0x10000) % 0x400]

/-- The code units that `s.split('').map(b => b.charCodeAt(0))` yields. -/
def charCodes (s : String) : List Nat := s.data.flatMap utf16

/-- ECMAScript `ToInt32`: wrap an integer into the signed 32-bit range. -/
def toInt32 (x : Int) : Int := (x + 2 ^ 31) % 2 ^ 32 - 2 ^ 31

/-- One step of the string hash: `a = ((a << 5) - a) + code; return a & a`. -/
def hashStep (a : Int) (code : Nat) : Int :=
  toInt32 ((toInt32 (a * 32) - a) + (code : Int))

/-- The inline hash `str.split('').reduce(hashStep, 0)`. -/
def hashString (s : String) : Int := (charCodes s).foldl hashStep 0

/-- `Math.round`: the nearest integer, halves rounded towards `+∞`. -/
def mathRound (x : ℚ) : Int := Int.floor (x + 1 / 2)

/-! ## Raw records -/

/-- The `office` reference carried by a user. -/
structure UserOffice where
  id : JSId
  name : Option String
  deriving DecidableEq, Repr

/-- A user as returned by `/queries/users`. -/
structure RawUser where
  id : JSId
  firstName : Option String
  lastName : Option String
  avatar : Option String
  department : Option String
  rol : Option String
  office : Option UserOffice
  deriving DecidableEq, Repr

/-- A timetable of an office. -/
structure TimeTable where
  isMain : Bool
  dayHours : Option ℚ
  deriving DecidableEq, Repr

/-- An office as returned by `/queries/offices`. -/
structure RawOffice where
  id : JSId
  timeTables : Option (List TimeTable)
  deriving DecidableEq, Repr

/-- A date field: falsy (missing, `null`, empty), present but unparsable
(`new Date` gives an invalid date), or a valid instant in milliseconds. -/
inductive JSDate where
  | absent
  | invalid
  | valid (ms : Int)
  deriving DecidableEq, Repr

/-- Truthiness of the raw date field. -/
def JSDate.truthy : JSDate → Bool
  | .absent => false
  | _ => true

/-- Time value of `new Date(field)`; `none` is `NaN`. -/
def JSDate.time : JSDate → Option Int
  | .valid ms => some ms
  | _ => none

/-- The `user` reference of a project member or task participant. -/
structure UserRef where
  id : JSId
  deriving DecidableEq, Repr

/-- A project member or a task participant. -/
structure Member where
  user : Option UserRef
  deriving DecidableEq, Repr

/-- A task of an activity, as nested in a project summary. -/
structure RawTask where
  name : Option String
  participants : Option (List Member)
  deriving DecidableEq, Repr

/-- An activity of a project. -/
structure Activity where
  name : Option String
  availableHours : Option ℚ
  tasks : Option (List RawTask)
  deriving DecidableEq, Repr

/-- A project as returned by `/queries/projects-summary`. -/
structure RawProject where
  id : JSId
  name : Option String
  code : Option String
  plannedHours : Option ℚ
  availableHours : Option ℚ
  startDate : JSDate
  endDate : JSDate
  isDraft : Bool
  members : Option (List Member)
  activities : Option (List Activity)
  deriving DecidableEq, Repr

/-! ## Derived records -/

/-- A task of the view model (the `projectId` slug, which needs Unicode case
mapping, is not part of the model). -/
structure Task where
  id : String
  project : String
  activity : String
  task : String
  color : Option String
  estimatedHours : ℚ
  actualHours : ℚ
  totalActivityHours : ℚ
  totalProjectHours : ℚ
  velocity : ℚ
  status : String
  startWeek : Option Int
  endWeek : Option Int
  pattern : List Bool
  isLongTerm : Bool
  targetHoursPerWeek : ℚ
  duration : String
  monthlyHours : List ℚ
  deriving DecidableEq, Repr

/-- A team member of the view model. -/
structure TeamMember where
  id : JSId
  name : String
  avatar : String
  department : String
  capacity : ℚ
  scheduled : ℚ
  utilization : Int
  role : String
  office : String
  tasks : List Task
  deriving DecidableEq, Repr

/-! ## Helper functions of the component -/

/-- The fixed palette of `getProjectColor`. -/
def colors : List String :=
  ["bg-purple-600", "bg-blue-600", "bg-green-600", "bg-red-600",
   "bg-yellow-600", "bg-indigo-600", "bg-pink-600", "bg-teal-600",
   "bg-orange-600", "bg-cyan-600", "bg-lime-600", "bg-violet-600"]

/-- The hash of `getProjectColor`: `projectId?.toString().split('').reduce(...)`;
`none` is the `undefined` that `?.` yields on a nullish id. -/
def projectHash : JSId → Option Int
  | .undefined => none
  | .null => none
  | .str s => some (hashString s)
  | .num n => some (hashString (numberToString n))

/-- Palette entry `colors[Math.abs(hash) % colors.length]`; with an undefined
hash the index is `NaN` and the lookup is `undefined` (`none`). -/
def getProjectColor (projectId : JSId) : Option String :=
  match projectHash projectId with
  | none => none
  | some hash => colors.get? (hash.natAbs % colors.length)

/-- Numeric `x > k` where `x` may be `NaN`. -/
def nanGt (x : Option Int) (k : Int) : Bool :=
  match x with
  | some v => decide (v > k)
  | none => false

/-- Milliseconds in a week: `1000 * 60 * 60 * 24 * 7`. -/
def msPerWeek : Int := 1000 * 60 * 60 * 24 * 7

/-- Project length in weeks, `12` when a date is missing; `none` is `NaN`. -/
def calculateProjectDurationWeeks (project : RawProject) : Option Int :=
  if project.startDate.truthy && project.endDate.truthy then
    match project.startDate.time, project.endDate.time with
    | some start, some stop => some (Int.ceil (((stop - start : Int) : ℚ) / (msPerWeek : ℚ)))
    | _, _ => none
  else some 12

/-- Total hours of a project as the task callback computes them (line 132):
`plannedHours || availableHours || 0`. -/
def projectTotalHours (project : RawProject) : ℚ :=
  numOr project.plannedHours (numOr project.availableHours 0)

/-- Status of a project at the instant `now`. -/
def getProjectStatus (project : RawProject) (now : Int) : String :=
  if project.isDraft then "planned"
  else if project.endDate.truthy &&
      (match project.endDate.time with | some t => decide (t < now) | none => false) then
    "completed"
  else if project.startDate.truthy &&
      (match project.startDate.time with | some t => decide (t > now) | none => false) then
    "planned"
  else "in-progress"

/-- Long-term flag: `totalHours > 200 || durationWeeks > 12`. -/
def isLongTermProject (project : RawProject) : Bool :=
  let totalHours := numOr project.plannedHours (numOr project.availableHours 0)
  let durationWeeks := calculateProjectDurationWeeks project
  decide (totalHours > 200) || nanGt durationWeeks 12

/-- Week offset of the start date relative to `now`, `-4` when missing. -/
def calculateProjectStartWeek (project : RawProject) (now : Int) : Option Int :=
  if project.startDate.truthy then
    match project.startDate.time with
    | some start => some (Int.floor (((start - now : Int) : ℚ) / (msPerWeek : ℚ)))
    | none => none
  else some (-4)

/-- Week offset of the end date relative to `now`, `20` when missing. -/
def calculateProjectEndWeek (project : RawProject) (now : Int) : Option Int :=
  if project.endDate.truthy then
    match project.endDate.time with
    | some stop => some (Int.floor (((stop - now : Int) : ℚ) / (msPerWeek : ℚ)))
    | none => none
  else some 20

/-- Human-readable duration of a project. -/
def calculateDuration (project : RawProject) : String :=
  let weeks := calculateProjectDurationWeeks project
  let months : Option Int := weeks.map fun (w : Int) => Int.ceil ((w : ℚ) / (433 / 100))
  if nanGt months 1 then
    (match months with | some m => numberToString m | none => "NaN") ++ " months"
  else if nanGt weeks 1 then
    (match weeks with | some w => numberToString w | none => "NaN") ++ " weeks"
  else "TBD"

/-- The constant work pattern. -/
def generateWorkPattern : List Bool :=
  [true, true, true, true, true, false, false, true, true]

/-- The trimmed full name used for the display name and the avatar. -/
def fullName (user : RawUser) : String :=
  jsTrim (strOr user.firstName "" ++ " " ++ strOr user.lastName "")

/-- The avatar glyphs of `getAvatarForUser`. -/
def avatars : List String :=
  ["👨‍💻", "👩‍💻", "👨‍🔬", "👩‍🔬", "👨‍💼", "👩‍💼", "👨‍🎨", "👩‍🎨"]

/-- Avatar picked from the hash of the full name. -/
def getAvatarForUser (user : RawUser) : String :=
  let name := fullName user
  if (charCodes name).length > 0 then
    (avatars.get? ((hashString name).natAbs % avatars.length)).getD ""
  else "👤"

/-! ## transformUserToTeamMember -/

/-- The main timetable of an office: `timeTables.find(tt => tt.isMain) || timeTables[0]`. -/
def mainTimetable (timeTables : List TimeTable) : Option TimeTable :=
  match timeTables.find? (fun tt => tt.isMain) with
  | some tt => some tt
  | none => timeTables.head?

/-- Weekly capacity of a user (lines 117-127) when `dayHours` is a number, in
exact arithmetic: `40` unless the user's office is found with a timetable
whose `dayHours` is truthy, then `dayHours * 5`, `parseFloat` reading a number
back unchanged.  `NumberOps.weeklyCapacity` is the general form, for any
scalar `dayHours`. -/
def weeklyCapacity (user : RawUser) (offices : List RawOffice) : ℚ :=
  match user.office with
  | none => 40
  | some uo =>
    if uo.id.truthy && decide (offices.length > 0) then
      match offices.find? (fun office => decide (office.id = uo.id)) with
      | none => 40
      | some userOffice =>
        match userOffice.timeTables with
        | none => 40
        | some timeTables =>
          if timeTables.length > 0 then
            match mainTimetable timeTables with
            | none => 40
            | some tt =>
              match tt.dayHours with
              | some h => if h ≠ 0 then h * 5 else 40
              | none => 40
          else 40
    else 40

/-- Target weekly hours before the cap:
`durationWeeks > 0 ? totalHours / durationWeeks : 0`. -/
def targetWeeklyHours (project : RawProject) : ℚ :=
  match calculateProjectDurationWeeks project with
  | some w => if w > 0 then projectTotalHours project / (w : ℚ) else 0
  | none => 0

/-- The callback of `userProjects.map` (lines 129-157), `buildTask` in the
specification. -/
def buildTask (user : RawUser) (capacity : ℚ) (now : Int) (project : RawProject)
    (index : Nat) : Task :=
  let firstActivity : Option Activity := project.activities.bind fun as => as.head?
  let firstTask : Option RawTask :=
    (firstActivity.bind fun a => a.tasks).bind fun ts => ts.head?
  let total := projectTotalHours project
  let target := targetWeeklyHours project
  { id := user.id.toStr ++ "-" ++ project.id.toStr ++ "-" ++ numberToString (index : Int)
    project := strOr project.name "Unnamed Project"
    activity := strOr (firstActivity.bind fun a => a.name) "General Work"
    task := strOr (firstTask.bind fun t => t.name) (strOr project.code "Project Tasks")
    color := getProjectColor (project.id.orElse (.num (index : Int)))
    estimatedHours := total
    actualHours := 0
    totalActivityHours := numOr (firstActivity.bind fun a => a.availableHours) total
    totalProjectHours := total
    velocity := 0
    status := getProjectStatus project now
    startWeek := calculateProjectStartWeek project now
    endWeek := calculateProjectEndWeek project now
    pattern := generateWorkPattern
    isLongTerm := isLongTermProject project
    targetHoursPerWeek := min target (capacity * (6 / 10))
    duration := calculateDuration project
    monthlyHours := List.replicate 12 (min target (capacity * (6 / 10))) }

/-- The `(element, index)` map of JavaScript arrays, counting from `start`. -/
def mapWithIndex {α β : Type} (f : α → Nat → β) : List α → Nat → List β
  | [], _ => []
  | a :: l, start => f a start :: mapWithIndex f l (start + 1)

/-- The task list of a user: `userProjects.map((project, index) => ...)`. -/
def buildTasks (user : RawUser) (capacity : ℚ) (now : Int)
    (userProjects : List RawProject) : List Task :=
  mapWithIndex (buildTask user capacity now) userProjects 0

/-- Unrounded sum `tasks.reduce((sum, task) => sum + (task.targetHoursPerWeek || 0), 0)`. -/
def scheduledHours (tasks : List Task) : ℚ :=
  tasks.foldl (fun sum task => sum + numOr (some task.targetHoursPerWeek) 0) 0

/-- The view model of one user (lines 116-174), its hour figures in exact
arithmetic; `NumberOps.memberHours` gives them in any number arithmetic. -/
def transformUserToTeamMember (user : RawUser) (userProjects : List RawProject)
    (offices : List RawOffice) (now : Int) : TeamMember :=
  let capacity := weeklyCapacity user offices
  let tasks := buildTasks user capacity now userProjects
  let scheduled := scheduledHours tasks
  let utilization := mathRound (scheduled / capacity * 100)
  { id := user.id
    name := strOr (some (fullName user)) "Unknown User"
    avatar := strOr user.avatar (getAvatarForUser user)
    department := strOr user.department "Unknown"
    capacity := capacity
    scheduled := (mathRound (scheduled * 10) : ℚ) / 10
    utilization := utilization
    role := strOr user.rol "Team Member"
    office := strOr (user.office.bind fun o => o.name) "Remote"
    tasks := tasks }

/-! ## The hour figures in JavaScript number arithmetic -/

/-- The operations on JavaScript numbers that the hour computations of
`transformUserToTeamMember` use.  `F` is the type of the numbers: in an
engine the IEEE 754 doubles, with `NaN` and the infinities, every operation
rounding its result.  The operations are parameters; what is proved for every
`NumberOps` holds for the arithmetic of the engine. -/
structure NumberOps (F : Type) where
  /-- The number denoted by a JSON number or by a numeric literal of the source. -/
  lit : ℚ → F
  /-- The operator `+` on two numbers. -/
  add : F → F → F
  /-- The operator `*`. -/
  mul : F → F → F
  /-- The operator `/`. -/
  div : F → F → F
  /-- The function `Math.min` on two numbers. -/
  min : F → F → F
  /-- The function `Math.round`. -/
  round : F → F
  /-- Truthiness of a number: neither a zero nor `NaN`. -/
  truthy : F → Bool
  /-- The function `parseFloat` on a string. -/
  parseFloat : String → F
  /-- The function `parseFloat` on a number, which is first converted to a
  string and then parsed. -/
  reparse : F → F

/-- A scalar field of a JSON record: missing, `null`, a boolean, a number or a
string. -/
inductive Scalar where
  | undefined
  | null
  | bool (b : Bool)
  | num (q : ℚ)
  | str (s : String)
  deriving DecidableEq, Repr

/-- A timetable as it arrives in the payload, `dayHours` being any scalar. -/
structure TimeTableJson where
  isMain : Bool
  dayHours : Scalar
  deriving DecidableEq, Repr

/-- An office whose timetables are as they arrive in the payload. -/
structure OfficeJson where
  id : JSId
  timeTables : Option (List TimeTableJson)
  deriving DecidableEq, Repr

/-- A timetable with a numeric or missing `dayHours`, as a payload record. -/
def TimeTable.toJson (tt : TimeTable) : TimeTableJson :=
  { isMain := tt.isMain
    dayHours :=
      match tt.dayHours with
      | some q => .num q
      | none => .undefined }

/-- An office with numeric `dayHours`, as a payload record. -/
def RawOffice.toJson (office : RawOffice) : OfficeJson :=
  { id := office.id
    timeTables := office.timeTables.map fun timeTables => timeTables.map TimeTable.toJson }

/-- The main timetable of an office (line 122):
`timeTables.find(tt => tt.isMain) || timeTables[0]`. -/
def mainTimetableJson (timeTables : List TimeTableJson) : Option TimeTableJson :=
  match timeTables.find? (fun tt => tt.isMain) with
  | some tt => some tt
  | none => timeTables.head?

/-- Truthiness of a scalar field: `undefined`, `null`, `false`, a number that
is zero (or `NaN`) and the empty string are falsy. -/
def NumberOps.truthyField {F : Type} (ops : NumberOps F) : Scalar → Bool
  | .undefined => false
  | .null => false
  | .bool b => b
  | .num q => ops.truthy (ops.lit q)
  | .str s => decide (s ≠ "")

/-- The call `parseFloat(value)` on a scalar field: the value is converted to
a string, which is parsed. -/
def NumberOps.parseFloatField {F : Type} (ops : NumberOps F) : Scalar → F
  | .undefined => ops.parseFloat "undefined"
  | .null => ops.parseFloat "null"
  | .bool b => ops.parseFloat (if b then "true" else "false")
  | .num q => ops.reparse (ops.lit q)
  | .str s => ops.parseFloat s

/-- Weekly capacity of a user (lines 117-127), `resolveWeeklyCapacity` in the
specification: `40` unless the user's office is found with a main timetable
whose `dayHours` is truthy, then `parseFloat(dayHours) * 5`. -/
def NumberOps.weeklyCapacity {F : Type} (ops : NumberOps F) (user : RawUser)
    (offices : List OfficeJson) : F :=
  match user.office with
  | none => ops.lit 40
  | some uo =>
    if uo.id.truthy && decide (offices.length > 0) then
      match offices.find? (fun office => decide (office.id = uo.id)) with
      | none => ops.lit 40
      | some userOffice =>
        match userOffice.timeTables with
        | none => ops.lit 40
        | some timeTables =>
          if timeTables.length > 0 then
            match mainTimetableJson timeTables with
            | none => ops.lit 40
            | some tt =>
              if ops.truthyField tt.dayHours then
                ops.mul (ops.parseFloatField tt.dayHours) (ops.lit 5)
              else ops.lit 40
          else ops.lit 40
    else ops.lit 40

/-- JavaScript `x || d` for an optional numeric field and a numeric default. -/
def NumberOps.numOr {F : Type} (ops : NumberOps F) (x : Option ℚ) (d : F) : F :=
  match x with
  | some q => if ops.truthy (ops.lit q) then ops.lit q else d
  | none => d

/-- Total hours of a project (line 132): `plannedHours || availableHours || 0`. -/
def NumberOps.projectTotalHours {F : Type} (ops : NumberOps F) (project : RawProject) : F :=
  ops.numOr project.plannedHours (ops.numOr project.availableHours (ops.lit 0))

/-- Target weekly hours before the cap (line 134):
`durationWeeks > 0 ? totalHours / durationWeeks : 0`. -/
def NumberOps.targetWeeklyHours {F : Type} (ops : NumberOps F) (project : RawProject) : F :=
  match calculateProjectDurationWeeks project with
  | some w => if w > 0 then ops.div (ops.projectTotalHours project) (ops.lit (w : ℚ)) else ops.lit 0
  | none => ops.lit 0

/-- The `targetHoursPerWeek` of the task of a project (line 152):
`Math.min(targetWeeklyHours, weeklyCapacity * 0.6)`. -/
def NumberOps.targetHoursPerWeek {F : Type} (ops : NumberOps F) (capacity : F)
    (project : RawProject) : F :=
  ops.min (ops.targetWeeklyHours project) (ops.mul capacity (ops.lit (6 / 10)))

/-- Unrounded sum (line 159):
`tasks.reduce((sum, task) => sum + (task.targetHoursPerWeek || 0), 0)`, on the
list of the `targetHoursPerWeek` of the tasks. -/
def NumberOps.scheduledHours {F : Type} (ops : NumberOps F) (targets : List F) : F :=
  targets.foldl (fun sum target => ops.add sum (if ops.truthy target then target else ops.lit 0))
    (ops.lit 0)

/-- The hour figures of a team member: its `capacity`, the `targetHoursPerWeek`
of its tasks in order, its `scheduled` and its `utilization`. -/
structure MemberHours (F : Type) where
  capacity : F
  targets : List F
  scheduled : F
  utilization : F

/-- The hour figures of the member that `transformUserToTeamMember` returns
(lines 117-127, 152, 159-160, 167-169). -/
def NumberOps.memberHours {F : Type} (ops : NumberOps F) (user : RawUser)
    (userProjects : List RawProject) (offices : List OfficeJson) : MemberHours F :=
  let weeklyCapacity := ops.weeklyCapacity user offices
  let targets := userProjects.map (ops.targetHoursPerWeek weeklyCapacity)
  let scheduledHours := ops.scheduledHours targets
  let utilization := ops.round (ops.mul (ops.div scheduledHours weeklyCapacity) (ops.lit 100))
  { capacity := weeklyCapacity
    targets := targets
    scheduled := ops.div (ops.round (ops.mul scheduledHours (ops.lit 10))) (ops.lit 10)
    utilization := utilization }

/-- The exact arithmetic on rationals, in which `transformUserToTeamMember`
and `weeklyCapacity` above are written: no operation rounds, `Math.round` is
`mathRound`, and a number read back by `parseFloat` is unchanged.  How
`parseFloat` reads a string is a parameter.  There is no `NaN` and no
infinity: a division by zero, which numeric `dayHours` never cause, gives 0
here. -/
def exactOps (parseFloat : String → ℚ) : NumberOps ℚ :=
  { lit := fun q => q
    add := fun x y => x + y
    mul := fun x y => x * y
    div := fun x y => x / y
    min := fun x y => min x y
    round := fun x => ((mathRound x : Int) : ℚ)
    truthy := fun x => decide (x ≠ 0)
    parseFloat := parseFloat
    reparse := fun x => x }

/-! ## The pure steps of loadWorkdeckData -/

/-- Insertion into a JavaScript `Set` kept in insertion order: a value already
present is not added again. -/
def setAdd (acc : List String) (x : String) : List String :=
  if x ∈ acc then acc else acc ++ [x]

/-- The filter callback `dept => dept && dept.trim() !== ''`: a department
that passes is kept as a string, `undefined` and blank ones are dropped. -/
def keepDepartment (dept : Option String) : Option String :=
  match dept with
  | some d => if d ≠ "" ∧ jsTrim d ≠ "" then some d else none
  | none => none

/-- The department strings that pass `dept && dept.trim() !== ''`, in the
order of the users. -/
def nonBlankDepartments (users : List RawUser) : List String :=
  (users.map fun user => user.department).filterMap keepDepartment

/-- The department list (lines 290-296): the distinct non-blank departments,
or `General` when there is none. -/
def uniqueDepts (users : List RawUser) : List String :=
  let depts := (nonBlankDepartments users).foldl setAdd []
  if depts.length = 0 then depts ++ ["General"] else depts

/-- The id read by `x.user?.id`: `undefined` when the reference is missing. -/
def refId (user : Option UserRef) : JSId :=
  match user with
  | some u => u.id
  | none => .undefined

/-- The membership clause: `project.members?.some(member => member.user?.id === user.id)`. -/
def memberClause (user : RawUser) (project : RawProject) : Bool :=
  match project.members with
  | some members => members.any fun member => decide (refId member.user = user.id)
  | none => false

/-- The participant clause: some task of some activity has the user among
its participants. -/
def participantClause (user : RawUser) (project : RawProject) : Bool :=
  match project.activities with
  | some activities =>
    activities.any fun activity =>
      match activity.tasks with
      | some tasks =>
        tasks.any fun task =>
          match task.participants with
          | some participants =>
            participants.any fun participant => decide (refId participant.user = user.id)
          | none => false
      | none => false
  | none => false

/-- The projects of a user (lines 301-313): a filter of the project list. -/
def userProjects (user : RawUser) (projects : List RawProject) : List RawProject :=
  projects.filter fun project =>
    if memberClause user project then true
    else if participantClause user project then true
    else false

/-- All users transformed (lines 300-316). -/
def transformedTeam (users : List RawUser) (projects : List RawProject)
    (offices : List RawOffice) (now : Int) : List TeamMember :=
  users.map fun user =>
    transformUserToTeamMember user (userProjects user projects) offices now

/-- The list handed to `setTeamData` (lines 318-324): members whose name is
truthy, not blank and not `Unknown User`. -/
def validTeam (users : List RawUser) (projects : List RawProject)
    (offices : List RawOffice) (now : Int) : List TeamMember :=
  (transformedTeam users projects offices now).filter fun member =>
    decide (member.name ≠ "") && decide (jsTrim member.name ≠ "")
      && decide (member.name ≠ "Unknown User")

/-! ## API client -/

/-- One entry of `participants` in the create-task body. -/
structure BodyParticipant where
  userId : JSId
  isOwner : Bool
  plannedHours : String
  percentage : Int
  deriving DecidableEq, Repr

/-- The object handed to `JSON.stringify` by `createWorkdeckTask`:
`name`, `project.id`, `plannedHours`, `importance`, `participants`. -/
structure CreateTaskBody where
  name : String
  projectId : JSId
  plannedHours : String
  importance : Int
  participants : List BodyParticipant
  deriving DecidableEq, Repr

/-- The argument of `createWorkdeckTask`; `priority` is `none` when absent. -/
structure TaskData where
  name : String
  projectId : JSId
  estimatedHours : Int
  priority : Option Int
  userId : JSId
  deriving DecidableEq, Repr

/-- The `options` argument of `fetchWithAuth`. -/
structure FetchOptions where
  method : Option String
  body : Option CreateTaskBody
  headers : List (String × String)
  deriving DecidableEq, Repr

/-- A request as handed to `fetch`; in `headers` a later binding of a key
overrides an earlier one, as in an object spread. -/
structure Request where
  url : String
  method : Option String
  body : Option CreateTaskBody
  headers : List (String × String)
  deriving DecidableEq, Repr

/-- The part of a `fetch` response that the client reads. -/
structure Response (α : Type) where
  ok : Bool
  status : Nat
  statusText : String
  payload : α

/-- The fixed origin of the API. -/
def WORKDECK_BASE_URL : String := "https://test-api.workdeck.com"

/-- The client call (lines 45-73).  `server` answers a request with a response
or a transport failure; the result is the list of requests issued and either
the thrown message or the JSON payload. -/
def fetchWithAuth {α : Type} (authToken : String)
    (server : Request → Except String (Response α)) (endpoint : String)
    (options : FetchOptions) : List Request × Except String α :=
  if authToken = "" then
    ([], .error "No authentication token available")
  else
    let request : Request :=
      { url := WORKDECK_BASE_URL ++ endpoint
        method := options.method
        body := options.body
        headers := [("Content-Type", "application/json"),
          ("Authorization", "Bearer " ++ authToken)] ++ options.headers }
    match server request with
    | .error e => ([request], .error e)
    | .ok response =>
      if !response.ok then
        if response.status = 401 then
          ([request], .error "Authentication failed. Please check your token.")
        else if response.status = 403 then
          ([request],
            .error "Access denied. You may not have permission to access this resource.")
        else if response.status = 404 then
          ([request], .error "Resource not found. The requested endpoint may not exist.")
        else
          ([request], .error ("API Error: " ++ toString response.status ++ " "
            ++ response.statusText))
      else ([request], .ok response.payload)

/-- The body built by `createWorkdeckTask` (lines 347-358). -/
def createTaskBody (taskData : TaskData) : CreateTaskBody :=
  { name := taskData.name
    projectId := taskData.projectId
    plannedHours := numberToString taskData.estimatedHours
    importance :=
      match taskData.priority with
      | some p => if p ≠ 0 then p else 2
      | none => 2
    participants :=
      [{ userId := taskData.userId
         isOwner := true
         plannedHours := numberToString taskData.estimatedHours
         percentage := 100 }] }

/-- The request of `createWorkdeckTask`: a POST of the body to the create-task
command. -/
def createTaskRequest {α : Type} (authToken : String)
    (server : Request → Except String (Response α)) (taskData : TaskData) :
    List Request × Except String α :=
  fetchWithAuth authToken server "/commands/sync/create-task"
    { method := some "POST", body := some (createTaskBody taskData), headers := [] }

/-! ## Read operations -/

/-- A JSON value as `response.json()` delivers it; in `obj` a later binding of
a key overrides an earlier one, as `JSON.parse` does. -/
inductive Json where
  | null
  | bool (b : Bool)
  | num (q : ℚ)
  | str (s : String)
  | arr (items : List Json)
  | obj (fields : List (String × Json))

/-- Truthiness of a JSON value: `null`, `false`, `0` and the empty string are
falsy; arrays and objects are truthy. -/
def Json.truthy : Json → Bool
  | .null => false
  | .bool b => b
  | .num q => decide (q ≠ 0)
  | .str s => decide (s ≠ "")
  | .arr _ => true
  | .obj _ => true

/-- The value bound to `key` in the fields of an object, `none` when the key
is absent. -/
def lookupField {β : Type} (key : String) (fields : List (String × β)) : Option β :=
  (fields.reverse.find? fun kv => decide (kv.1 = key)).map fun kv => kv.2

/-- The message of the `TypeError` raised by reading a property of `null`
(the wording is the engine's). -/
def nullReadMessage : String := "Cannot read properties of null (reading 'result')"

/-- The property read `data.result`: it throws on `null`, is `undefined`
(`none`) on a primitive, on an array and on an object without the key. -/
def Json.result : Json → Except String (Option Json)
  | .null => .error nullReadMessage
  | .obj fields => .ok (lookupField "result" fields)
  | _ => .ok none

/-- The expression `data.result || data` of the read operations. -/
def unwrapResult (data : Json) : Except String Json :=
  match data.result with
  | .error e => .error e
  | .ok (some v) => if v.truthy then .ok v else .ok data
  | .ok none => .ok data

/-- A typed payload: the records either wrapped in a `result` field or bare. -/
inductive Envelope (α : Type) where
  | wrapped (result : α)
  | bare (data : α)

/-- The expression `data.result || data` on a typed payload, whose records (an
array or an object) are always truthy. -/
def Envelope.unwrap {α : Type} : Envelope α → Except String α
  | .wrapped result => .ok result
  | .bare data => .ok data

/-- The JSON body of the response to `/queries/users`: any JSON value whose
arrays are arrays of user records.  It need not be an array, nor an object
whose `result` is one. -/
inductive UsersBody where
  | null
  | bool (b : Bool)
  | num (q : ℚ)
  | str (s : String)
  | users (records : List RawUser)
  | obj (fields : List (String × UsersBody))

/-- Truthiness of a users body: `null`, `false`, `0` and the empty string are
falsy; arrays and objects are truthy. -/
def UsersBody.truthy : UsersBody → Bool
  | .null => false
  | .bool b => b
  | .num q => decide (q ≠ 0)
  | .str s => decide (s ≠ "")
  | .users _ => true
  | .obj _ => true

/-- The property read `data.result` on a users body: it throws on `null`, is
`undefined` (`none`) on a primitive, on an array and on an object without the
key. -/
def UsersBody.result : UsersBody → Except String (Option UsersBody)
  | .null => .error nullReadMessage
  | .obj fields => .ok (lookupField "result" fields)
  | _ => .ok none

/-- The expression `data.result || data` of `fetchUsers` (line 78) on a users
body: the value bound to `users` at line 276. -/
def UsersBody.unwrap (data : UsersBody) : Except String UsersBody :=
  match data.result with
  | .error e => .error e
  | .ok (some v) => if v.truthy then .ok v else .ok data
  | .ok none => .ok data

/-- The message of the `TypeError` raised by `users.map(...)` at line 290 when
`users` is not an array: a primitive or an object has no callable `map`, and
`null` has no property at all (the wording is the engine's). -/
def usersMapMessage : UsersBody → String
  | .null => "Cannot read properties of null (reading 'map')"
  | _ => "users.map is not a function"

/-- The `options` of a call made without a second argument. -/
def noOptions : FetchOptions := { method := none, body := none, headers := [] }

/-- The common body of the four read operations (lines 75-113): the payload of
`fetchWithAuth` is unwrapped, a failure is logged and thrown again. -/
def readOperation {α β : Type} (unwrap : α → Except String β) (authToken : String)
    (server : Request → Except String (Response α)) (endpoint : String) :
    List Request × Except String β :=
  match fetchWithAuth authToken server endpoint noOptions with
  | (requests, .ok data) => (requests, unwrap data)
  | (requests, .error e) => (requests, .error e)

/-- The read of `/queries/users`. -/
def fetchUsers {α β : Type} (unwrap : α → Except String β) (authToken : String)
    (server : Request → Except String (Response α)) : List Request × Except String β :=
  readOperation unwrap authToken server "/queries/users"

/-- The read of `/queries/projects-summary`. -/
def fetchProjects {α β : Type} (unwrap : α → Except String β) (authToken : String)
    (server : Request → Except String (Response α)) : List Request × Except String β :=
  readOperation unwrap authToken server "/queries/projects-summary"

/-- The read of `/queries/offices`. -/
def fetchOffices {α β : Type} (unwrap : α → Except String β) (authToken : String)
    (server : Request → Except String (Response α)) : List Request × Except String β :=
  readOperation unwrap authToken server "/queries/offices"

/-- The read of `/queries/me`. -/
def fetchMyUser {α β : Type} (unwrap : α → Except String β) (authToken : String)
    (server : Request → Except String (Response α)) : List Request × Except String β :=
  readOperation unwrap authToken server "/queries/me"

/-! ## Dashboard controller -/

/-- The state of the controller: the React state that the load, the token form
and the assignment dialog touch, the token kept in browser storage, the tokens
of the loads whose fetches are pending, and the alerts shown so far. -/
structure Controller where
  authToken : String
  loading : Bool
  error : Option String
  showTokenModal : Bool
  teamData : List TeamMember
  projects : List RawProject
  departments : List String
  lastSync : Option Int
  selectedDepartment : String
  showAssignTaskModal : Bool
  selectedMemberForAssignment : Option TeamMember
  storedToken : String
  pendingLoads : List String
  alerts : List String

/-- The state of the first render: the token is
`localStorage.getItem('workdeck_token') || ''` (`none` is a missing entry). -/
def initialState (stored : Option String) : Controller :=
  { authToken := strOr stored ""
    loading := true
    error := none
    showTokenModal := false
    teamData := []
    projects := []
    departments := []
    lastSync := none
    selectedDepartment := "all"
    showAssignTaskModal := false
    selectedMemberForAssignment := none
    storedToken := strOr stored ""
    pendingLoads := []
    alerts := [] }

/-- The four full-page views of the component. -/
inductive Page where
  | tokenForm
  | spinner
  | errorPanel
  | dashboard
  deriving DecidableEq, Repr

/-- The page chosen by the render (lines 389, 461, 479): the token form, else
the spinner, else the error panel, else the dashboard. -/
def render (s : Controller) : Page :=
  if s.showTokenModal || (decide (s.authToken = "") && !s.loading) then .tokenForm
  else if s.loading then .spinner
  else if strTruthy s.error then .errorPanel
  else .dashboard

/-- The three reads that `Promise.all` waits for without a `catch`. -/
inductive RequiredFetch where
  | users
  | projects
  | offices
  deriving DecidableEq, Repr

/-- What the server does with the four reads of one load: for each a
transport failure or a response, and the order in which the three required
reads settle. -/
structure LoadResponses where
  users : Except String (Response UsersBody)
  projects : Except String (Response (Envelope (List RawProject)))
  offices : Except String (Response (Envelope (List RawOffice)))
  currentUser : Except String (Response (Envelope RawUser))
  settleOrder : List RequiredFetch

/-- The message with which a required read rejected, if it did. -/
def rejection {α β γ : Type} (users : Except String α) (projects : Except String β)
    (offices : Except String γ) : RequiredFetch → Option String
  | .users => match users with | .error e => some e | .ok _ => none
  | .projects => match projects with | .error e => some e | .ok _ => none
  | .offices => match offices with | .error e => some e | .ok _ => none

/-- The rejection that `Promise.all` reports: that of the first required read
to reject, in the order in which they settle. -/
def firstRejection {α β γ : Type} (order : List RequiredFetch) (users : Except String α)
    (projects : Except String β) (offices : Except String γ) : Option String :=
  (order ++ [RequiredFetch.users, RequiredFetch.projects, RequiredFetch.offices]).findSome?
    (rejection users projects offices)

/-- `Promise.all` over the three required reads and the current-user read
with its `.catch(() => null)`: all the values, or the first rejection. -/
def promiseAll {α β γ δ : Type} (order : List RequiredFetch) (users : Except String α)
    (projects : Except String β) (offices : Except String γ)
    (currentUser : Except String δ) : Except String (α × β × γ × Option δ) :=
  let me : Option δ := match currentUser with | .ok u => some u | .error _ => none
  match users, projects, offices with
  | .ok u, .ok p, .ok o => .ok (u, p, o, me)
  | _, _, _ => .error ((firstRejection order users projects offices).getD "")

/-- The outcome of the four reads of a load started with `authToken`. -/
def loadOutcome (authToken : String) (r : LoadResponses) :
    Except String (UsersBody × List RawProject × List RawOffice × Option RawUser) :=
  promiseAll r.settleOrder
    (fetchUsers UsersBody.unwrap authToken fun _ => r.users).2
    (fetchProjects Envelope.unwrap authToken fun _ => r.projects).2
    (fetchOffices Envelope.unwrap authToken fun _ => r.offices).2
    (fetchMyUser Envelope.unwrap authToken fun _ => r.currentUser).2

/-- The requests that a load started with `authToken` issues. -/
def loadRequests (authToken : String) (r : LoadResponses) : List Request :=
  (fetchUsers UsersBody.unwrap authToken fun _ => r.users).1
    ++ (fetchProjects Envelope.unwrap authToken fun _ => r.projects).1
    ++ (fetchOffices Envelope.unwrap authToken fun _ => r.offices).1
    ++ (fetchMyUser Envelope.unwrap authToken fun _ => r.currentUser).1

/-- The synchronous start of `loadWorkdeckData` (lines 263-272): without a
token the error is set and the token form opened; with one the state enters
Loading and the load is pending. -/
def beginLoad (s : Controller) : Controller :=
  if s.authToken = "" then
    { s with
      error := some "No authentication token found. Please set your Workdeck token."
      loading := false
      showTokenModal := true }
  else
    { s with
      loading := true
      error := none
      pendingLoads := s.pendingLoads ++ [s.authToken] }

/-- The continuation of a load started with `authToken`, once its reads have
settled (lines 283-333).  When `users` is an array the departments, the team,
the projects and the sync time are recorded.  When it is not, `users.map` at
line 290 throws before any setter has run, and the `catch` of lines 329-333
records the message of the `TypeError`, as it records the message of a
rejected read. -/
def settleLoad (s : Controller) (authToken : String) (r : LoadResponses) (now : Int) :
    Controller :=
  match loadOutcome authToken r with
  | .ok (.users users, projects, offices, _) =>
    { s with
      departments := uniqueDepts users
      teamData := validTeam users projects offices now
      projects := projects
      lastSync := some now
      loading := false
      pendingLoads := s.pendingLoads.erase authToken }
  | .ok (users, _, _, _) =>
    { s with
      error := some (usersMapMessage users)
      loading := false
      pendingLoads := s.pendingLoads.erase authToken }
  | .error message =>
    { s with
      error := some message
      loading := false
      pendingLoads := s.pendingLoads.erase authToken }

/-- A whole run of `loadWorkdeckData` (lines 262-334), from its start to the
state it leaves once its reads have settled. -/
def loadWorkdeckData (s : Controller) (r : LoadResponses) (now : Int) : Controller :=
  if s.authToken = "" then beginLoad s
  else settleLoad (beginLoad s) s.authToken r now

/-- The two effects that depend on `authToken` (lines 36-42 and 336-340), run
after the first render and after each render in which the token changed. -/
def tokenEffects (s : Controller) : Controller :=
  if s.authToken = "" then
    { s with
      showTokenModal := true
      loading := false
      error := some "Authentication token required. Please set your Workdeck token." }
  else beginLoad s

/-- The component after its first render and effects. -/
def mount (stored : Option String) : Controller := tokenEffects (initialState stored)

/-- The handler of the token form (lines 379-386): a non-blank token is
stored, set, the form closed and the error cleared; the effects then run if
the token changed. -/
def handleTokenSubmit (s : Controller) (token : String) : Controller :=
  if jsTrim token ≠ "" then
    let next : Controller :=
      { s with
        storedToken := jsTrim token
        authToken := jsTrim token
        showTokenModal := false
        error := none }
    if next.authToken ≠ s.authToken then tokenEffects next else next
  else s

/-- The buttons that open the token form: `setShowTokenModal(true)`. -/
def updateToken (s : Controller) : Controller := { s with showTokenModal := true }

/-- The button that opens the assignment dialog for a member (lines 541-544). -/
def handleAssignTask (s : Controller) (member : TeamMember) : Controller :=
  { s with selectedMemberForAssignment := some member, showAssignTaskModal := true }

/-- A run of `createWorkdeckTask` (lines 343-368): the POST, then a whole
reload when it succeeded; a failure of the POST is thrown again. -/
def createWorkdeckTask {α : Type} (s : Controller) (taskData : TaskData)
    (post : Except String (Response α)) (r : LoadResponses) (now : Int) :
    Controller × Except String α :=
  match (createTaskRequest s.authToken (fun _ => post) taskData).2 with
  | .ok response => (loadWorkdeckData s r now, .ok response)
  | .error e => (s, .error e)

/-- The message of the `TypeError` raised by reading `id` of a `null` member
(the wording is the engine's). -/
def nullMemberMessage : String := "Cannot read properties of null (reading 'id')"

/-- A run of `submitTaskAssignment` (lines 546-558): the task is created for
the selected member and the dialog closed, or the failure is shown in an
alert. -/
def submitTaskAssignment {α : Type} (s : Controller) (taskData : TaskData)
    (post : Except String (Response α)) (r : LoadResponses) (now : Int) : Controller :=
  match s.selectedMemberForAssignment with
  | none => { s with alerts := s.alerts ++ ["Error creating task: " ++ nullMemberMessage] }
  | some member =>
    match createWorkdeckTask s { taskData with userId := member.id } post r now with
    | (next, .ok _) =>
      { next with showAssignTaskModal := false, selectedMemberForAssignment := none }
    | (next, .error e) => { next with alerts := next.alerts ++ ["Error creating task: " ++ e] }

/-- The handler of the department filter: `setSelectedDepartment(e.target.value)`. -/
def setSelectedDepartment (s : Controller) (department : String) : Controller :=
  { s with selectedDepartment := department }

/-- The members shown on the dashboard (lines 512-515): all of them under
`all`, else those of the selected department. -/
def filteredTeamMembers (s : Controller) : List TeamMember :=
  s.teamData.filter fun member =>
    decide (s.selectedDepartment = "all") || decide (member.department = s.selectedDepartment)

/-- The values offered by the department filter: `all` and each entry of
the department list. -/
def departmentOptions (s : Controller) : List String := "all" :: s.departments

/-! ## Predicates used to state the properties -/


/-- A name field that is missing, empty or made of white space only. -/
def isBlank (s : Option String) : Bool :=
  match s with
  | some v => v.data.all isJSWhitespace
  | none => true

/-- The membership clause in the words of the specification: the user's id
equals some `project.members[].user.id`. -/
def AssociatedByMember (user : RawUser) (project : RawProject) : Prop :=
  ∃ members, project.members = some members ∧
    ∃ member ∈ members, refId member.user = user.id

/-- The participant clause in the words of the specification: the user's id
equals some `project.activities[].tasks[].participants[].user.id`. -/
def AssociatedByParticipant (user : RawUser) (project : RawProject) : Prop :=
  ∃ activities, project.activities = some activities ∧
    ∃ activity ∈ activities, ∃ tasks, activity.tasks = some tasks ∧
      ∃ task ∈ tasks, ∃ participants, task.participants = some participants ∧
        ∃ participant ∈ participants, refId participant.user = user.id

/-- The distinct elements of a list in order of first occurrence. -/
def firstOccurrences : List String → List String
  | [] => []
  | d :: ds => d :: (firstOccurrences ds).filter fun x => decide (x ≠ d)

/-- Position in the users list of the first user whose department is `d`
(the length of the list when there is none). -/
def firstUserWith (users : List RawUser) (d : String) : Nat :=
  users.findIdx fun u => decide (u.department = some d)

/-- The response to a read is a 401. -/
def Answers401 {α : Type} (response : Except String (Response α)) : Prop :=
  ∃ r, response = .ok r ∧ r.ok = false ∧ r.status = 401

/-- The response to the required read `f` in a load is a 401. -/
def LoadResponses.answers401 (r : LoadResponses) : RequiredFetch → Prop
  | .users => Answers401 r.users
  | .projects => Answers401 r.projects
  | .offices => Answers401 r.offices

/-- The rejections of the three required reads of a load started with `authToken`. -/
def loadRejection (authToken : String) (r : LoadResponses) : RequiredFetch → Option String :=
  rejection (fetchUsers UsersBody.unwrap authToken fun _ => r.users).2
    (fetchProjects Envelope.unwrap authToken fun _ => r.projects).2
    (fetchOffices Envelope.unwrap authToken fun _ => r.offices).2

/-- Every required read that settles before `f` in `order` succeeds: `f` is
the first to reject if it rejects. -/
def NoEarlierRejection (order : List RequiredFetch) (rejected : RequiredFetch → Option String)
    (f : RequiredFetch) : Prop :=
  ∃ before after, order = before ++ f :: after ∧ ∀ g ∈ before, rejected g = none

/-- The number written by a list of decimal digit characters. -/
def decodeDigits (l : List Char) : Nat :=
  l.foldl (fun value c => 10 * value + (c.toNat - 48)) 0

/-! ## Concrete inputs used by the examples -/

/-- A user `u1` named Ann, attached to office `7`. -/
def sampleUser : RawUser :=
  { id := .str "u1", firstName := some "Ann", lastName := none, avatar := none,
    department := none, rol := none, office := some { id := .num 7, name := none } }

/-- Office `7` with one timetable of one hour a day. -/
def smallOffice : RawOffice :=
  { id := .num 7, timeTables := some [{ isMain := false, dayHours := some 1 }] }

/-- A project without id, name or dates and with two planned hours. -/
def bareProject : RawProject :=
  { id := .undefined, name := none, code := none, plannedHours := some 2,
    availableHours := none, startDate := .absent, endDate := .absent, isDraft := false,
    members := none, activities := none }

/-- A project that lists user `u1` twice as a member and once as a participant. -/
def sharedProject : RawProject :=
  { bareProject with
    id := .str "p1",
    members := some [{ user := some { id := .str "u1" } }, { user := some { id := .str "u1" } }],
    activities := some [
      { name := some "Build",
        availableHours := none,
        tasks := some [
          { name := some "Design",
            participants := some [{ user := some { id := .str "u1" } }] }] }] }

/-- The task of the specification's example: `Design` in project `p1`, 20
hours, for user `u1`, without priority. -/
def designTask : TaskData :=
  { name := "Design", projectId := .str "p1", estimatedHours := 20, priority := none,
    userId := .str "u1" }

/-- A 401 answer without payload. -/
def unauthorized : Response Unit :=
  { ok := false, status := 401, statusText := "Unauthorized", payload := () }

/-- A response with the given status, whose `ok` flag says that the status is
in 200-299. -/
def respond {α : Type} (status : Nat) (statusText : String) (payload : α) : Response α :=
  { ok := decide (200 ≤ status ∧ status ≤ 299), status := status, statusText := statusText,
    payload := payload }

/-- An envelope whose `result` is `null`. -/
def nullEnvelope : Json := .obj [("result", .null)]

/-- A load in which every read succeeds with no record. -/
def emptyLoad : LoadResponses :=
  { users := .ok (respond 200 "OK" (.obj [("result", .users [])]))
    projects := .ok (respond 200 "OK" (.wrapped []))
    offices := .ok (respond 200 "OK" (.bare []))
    currentUser := .ok (respond 200 "OK" (.bare sampleUser))
    settleOrder := [.users, .projects, .offices] }

/-- A load in which the users read answers 401 and the others succeed. -/
def unauthorizedLoad : LoadResponses :=
  { emptyLoad with users := .ok (respond 401 "Unauthorized" (.users [])) }

/-- A load in which the users read answers 401 after the projects read has
failed at the transport level. -/
def raceLoad : LoadResponses :=
  { unauthorizedLoad with
    projects := .error "Failed to fetch",
    settleOrder := [.projects, .users, .offices] }

/-- The state of a first render with the stored token `secret`. -/
def firstRender : Controller := initialState (some "secret")

/-- The dashboard after a first load in which every read succeeded. -/
def readyState : Controller := loadWorkdeckData firstRender emptyLoad 0

/-- Office `7` with a main timetable of eight hours a day. -/
def mainOffice : RawOffice :=
  { id := .num 7, timeTables := some [{ isMain := true, dayHours := some 8 }] }

/-- A project of 120 planned hours that spans exactly ten weeks. -/
def tenWeekProject : RawProject :=
  { bareProject with
    plannedHours := some 120,
    startDate := .valid 0,
    endDate := .valid 6048000000 }

/-- A project of 10 planned hours whose end date is one week before its start. -/
def reversedProject : RawProject :=
  { bareProject with
    plannedHours := some 10,
    startDate := .valid 604800000,
    endDate := .valid 0 }

/-- Office `7` whose only timetable has zero hours a day. -/
def idleOffice : RawOffice :=
  { id := .num 7, timeTables := some [{ isMain := true, dayHours := some 0 }] }

/-- A user attached to the office whose id is the number 0. -/
def zeroOfficeUser : RawUser := { sampleUser with office := some { id := .num 0, name := none } }

/-- The office whose id is the number 0, with six hours a day. -/
def zeroOffice : RawOffice :=
  { id := .num 0, timeTables := some [{ isMain := true, dayHours := some 6 }] }

/-- The Failed state left by a first load whose users read answered 401. -/
def failedState : Controller := loadWorkdeckData firstRender unauthorizedLoad 0

/-- A load that succeeds with two users, one without department and one whose
department is white space only. -/
def blankDepartmentsLoad : LoadResponses :=
  { emptyLoad with
    users := .ok (respond 200 "OK" (.obj [("result",
      .users [sampleUser, { sampleUser with department := some "  " }])])) }

/-- A load in which every read answers 200 and the body of the users read is
the object `{ result: null }`. -/
def nullResultLoad : LoadResponses :=
  { emptyLoad with users := .ok (respond 200 "OK" (.obj [("result", .null)])) }

/-- A `parseFloat` for strings of decimal digits: the number written. -/
def readDigits (s : String) : ℚ := (decodeDigits s.data : ℚ)

/-- Office `7` whose main timetable gives `dayHours` as the string `8`. -/
def textOffice : OfficeJson :=
  { id := .num 7, timeTables := some [{ isMain := true, dayHours := .str "8" }] }

/-- Office `7` whose main timetable gives `dayHours` as the string `0`. -/
def zeroTextOffice : OfficeJson :=
  { id := .num 7, timeTables := some [{ isMain := true, dayHours := .str "0" }] }

/-! ## Auxiliary lemmas -/

theorem length_mapWithIndex {α β : Type} (f : α → Nat → β) (l : List α) (start : Nat) :
    (mapWithIndex f l start).length = l.length := by
  induction l generalizing start with
  | nil => rfl
  | cons a l ih => simp [mapWithIndex, ih]

theorem getElem?_mapWithIndex {α β : Type} (f : α → Nat → β) (l : List α)
    (start i : Nat) :
    (mapWithIndex f l start)[i]? = (l[i]?).map fun a => f a (start + i) := by
  induction l generalizing start i with
  | nil => simp [mapWithIndex]
  | cons a l ih =>
    cases i with
    | zero => simp [mapWithIndex]
    | succ i =>
      simp only [mapWithIndex, List.getElem?_cons_succ, ih]
      congr 1
      funext b
      congr 1
      omega

theorem mem_mapWithIndex {α β : Type} (f : α → Nat → β) (l : List α) (start : Nat)
    (b : β) (h : b ∈ mapWithIndex f l start) : ∃ a ∈ l, ∃ i, b = f a i := by
  induction l generalizing start with
  | nil => simp [mapWithIndex] at h
  | cons a l ih =>
    simp only [mapWithIndex, List.mem_cons] at h
    rcases h with h | h
    · exact ⟨a, List.mem_cons_self _ _, start, h⟩
    · obtain ⟨a', ha', i, hi⟩ := ih _ h
      exact ⟨a', List.mem_cons_of_mem _ ha', i, hi⟩

theorem numOr_some_zero (x : ℚ) : numOr (some x) 0 = x := by
  unfold numOr
  by_cases h : x = 0 <;> simp [h]

theorem foldl_scheduled (tasks : List Task) (init : ℚ) :
    tasks.foldl (fun sum task => sum + numOr (some task.targetHoursPerWeek) 0) init
      = init + (tasks.map fun t => t.targetHoursPerWeek).sum := by
  induction tasks generalizing init with
  | nil => simp
  | cons t ts ih =>
    rw [List.foldl_cons, ih, numOr_some_zero, List.map_cons, List.sum_cons, add_assoc]

theorem scheduledHours_eq_sum (tasks : List Task) :
    scheduledHours tasks = (tasks.map fun t => t.targetHoursPerWeek).sum := by
  simp [scheduledHours, foldl_scheduled]

/-- The weekly capacity is never zero, so the utilization never divides by zero. -/
theorem weeklyCapacity_ne_zero (user : RawUser) (offices : List RawOffice) :
    weeklyCapacity user offices ≠ 0 := by
  unfold weeklyCapacity
  split
  · norm_num
  · split
    · split
      · norm_num
      · split
        · norm_num
        · split
          · split
            · norm_num
            · split
              · split
                · rename_i h hne
                  intro h0
                  apply hne
                  linarith
                · norm_num
              · norm_num
          · norm_num
    · norm_num

theorem not_head_of_dropWhile_eq_self (A : List Char) (hA : A.dropWhile isJSWhitespace = A)
    (c : Char) (cs : List Char) (hc : A = c :: cs) : isJSWhitespace c = false := by
  subst hc
  by_contra hp
  have hp1 : isJSWhitespace c = true := by simpa using hp
  rw [List.dropWhile_cons_of_pos hp1] at hA
  have hlen := (List.dropWhile_suffix (l := cs) isJSWhitespace).length_le
  rw [hA] at hlen
  simp at hlen

theorem dropWhile_trimChars (l : List Char) :
    (trimChars l).dropWhile isJSWhitespace = trimChars l := by
  have hpre : trimChars l <+: l.dropWhile isJSWhitespace := List.rdropWhile_prefix _ _
  obtain ⟨rest, hrest⟩ := hpre
  cases htc : trimChars l with
  | nil => rfl
  | cons c cs =>
    rw [htc] at hrest
    have hc : isJSWhitespace c = false :=
      not_head_of_dropWhile_eq_self _ (List.dropWhile_idempotent _ _) c (cs ++ rest)
        (by rw [← hrest]; rfl)
    rw [List.dropWhile_cons_of_neg (by simp [hc])]

/-- Trimming is idempotent. -/
theorem trimChars_idem (l : List Char) : trimChars (trimChars l) = trimChars l := by
  have h1 : trimChars (trimChars l) = List.rdropWhile isJSWhitespace
      ((trimChars l).dropWhile isJSWhitespace) := rfl
  rw [h1, dropWhile_trimChars]
  exact List.rdropWhile_idempotent _ _

theorem jsTrim_idem (s : String) : jsTrim (jsTrim s) = jsTrim s := by
  simp [jsTrim, trimChars_idem]

theorem trimChars_of_all_whitespace (l : List Char)
    (h : ∀ c ∈ l, isJSWhitespace c = true) : trimChars l = [] := by
  have h1 : l.dropWhile isJSWhitespace = [] := List.dropWhile_eq_nil_iff.mpr h
  simp [trimChars, h1]

theorem strOr_blank_data (s : Option String) (h : isBlank s = true) :
    ∀ c ∈ (strOr s "").data, isJSWhitespace c = true := by
  cases s with
  | none => simp [strOr]
  | some v =>
    simp only [isBlank, List.all_eq_true] at h
    by_cases hv : v = ""
    · simp [strOr, hv]
    · simpa [strOr, hv] using h

theorem fullName_of_blank (user : RawUser) (hf : isBlank user.firstName = true)
    (hl : isBlank user.lastName = true) : fullName user = "" := by
  unfold fullName jsTrim
  rw [trimChars_of_all_whitespace]
  intro c hc
  simp only [String.data_append, List.mem_append] at hc
  rcases hc with (hc | hc) | hc
  · exact strOr_blank_data _ hf c hc
  · have : c = ' ' := by simpa using hc
    subst this
    decide
  · exact strOr_blank_data _ hl c hc

theorem name_cases (user : RawUser) (userProjects : List RawProject)
    (offices : List RawOffice) (now : Int) :
    (transformUserToTeamMember user userProjects offices now).name = "Unknown User" ∨
    ((transformUserToTeamMember user userProjects offices now).name = fullName user ∧
      fullName user ≠ "") := by
  simp only [transformUserToTeamMember, strOr]
  by_cases h : fullName user = ""
  · left
    simp [h]
  · right
    simp [h]

theorem memberClause_iff (user : RawUser) (project : RawProject) :
    memberClause user project = true ↔ AssociatedByMember user project := by
  unfold memberClause AssociatedByMember
  cases project.members with
  | none => simp
  | some members => simp [List.any_eq_true]

theorem participantClause_iff (user : RawUser) (project : RawProject) :
    participantClause user project = true ↔ AssociatedByParticipant user project := by
  unfold participantClause AssociatedByParticipant
  cases project.activities with
  | none => simp
  | some activities =>
    simp only [List.any_eq_true, Option.some.injEq, exists_eq_left']
    constructor
    · rintro ⟨activity, hmem, h⟩
      refine ⟨activity, hmem, ?_⟩
      cases hts : activity.tasks with
      | none => simp [hts] at h
      | some tasks =>
        simp only [hts, List.any_eq_true] at h
        obtain ⟨task, htmem, h⟩ := h
        refine ⟨tasks, rfl, task, htmem, ?_⟩
        cases hps : task.participants with
        | none => simp [hps] at h
        | some participants =>
          simp only [hps, List.any_eq_true, decide_eq_true_eq] at h
          obtain ⟨x, hx, hid⟩ := h
          exact ⟨participants, rfl, x, hx, hid⟩
    · rintro ⟨activity, hmem, tasks, hts, task, htmem, participants, hps, x, hx, hid⟩
      refine ⟨activity, hmem, ?_⟩
      simp only [hts, List.any_eq_true]
      refine ⟨task, htmem, ?_⟩
      simp only [hps, List.any_eq_true, decide_eq_true_eq]
      exact ⟨x, hx, hid⟩

theorem userProjects_pred_iff (user : RawUser) (project : RawProject) :
    (if memberClause user project then true
      else if participantClause user project then true else false) = true ↔
    (AssociatedByMember user project ∨ AssociatedByParticipant user project) := by
  rw [← memberClause_iff, ← participantClause_iff]
  cases memberClause user project <;> cases participantClause user project <;> simp

theorem foldl_setAdd (acc l : List String) :
    l.foldl setAdd acc = acc ++ (firstOccurrences l).filter fun d => decide (d ∉ acc) := by
  induction l generalizing acc with
  | nil => simp [firstOccurrences]
  | cons x l ih =>
    rw [List.foldl_cons, ih]
    unfold setAdd
    by_cases hx : x ∈ acc
    · rw [if_pos hx]
      simp only [firstOccurrences, List.filter_cons, hx, not_true_eq_false, decide_False,
        Bool.false_eq_true, if_false, List.filter_filter]
      congr 1
      apply List.filter_congr
      intro d _
      by_cases hd : d ∈ acc
      · simp [hd]
      · have : d ≠ x := fun h => hd (h ▸ hx)
        simp [hd, this]
    · rw [if_neg hx]
      simp only [firstOccurrences, List.filter_cons, hx, not_false_eq_true, decide_True,
        if_true, List.filter_filter, List.append_assoc, List.singleton_append]
      congr 2
      apply List.filter_congr
      intro d _
      by_cases hd : d ∈ acc <;> by_cases hdx : d = x <;> simp [hd, hdx]

theorem mem_firstOccurrences (l : List String) (d : String) :
    d ∈ firstOccurrences l ↔ d ∈ l := by
  induction l with
  | nil => simp [firstOccurrences]
  | cons x l ih =>
    simp only [firstOccurrences, List.mem_cons, List.mem_filter, ih, decide_eq_true_eq]
    by_cases h : d = x <;> simp [h]

theorem nodup_firstOccurrences (l : List String) : (firstOccurrences l).Nodup := by
  induction l with
  | nil => simp [firstOccurrences]
  | cons x l ih =>
    simp only [firstOccurrences, List.nodup_cons, List.mem_filter, decide_eq_true_eq]
    exact ⟨fun h => h.2 rfl, ih.filter _⟩

theorem pairwise_firstOccurrences (l : List String) :
    (firstOccurrences l).Pairwise fun a b => l.indexOf a < l.indexOf b := by
  induction l with
  | nil => simp [firstOccurrences]
  | cons x l ih =>
    simp only [firstOccurrences, List.pairwise_cons]
    constructor
    · intro b hb
      have hbx : b ≠ x := by simpa using (List.mem_filter.mp hb).2
      rw [List.indexOf_cons_self, List.indexOf_cons_ne _ (Ne.symm hbx)]
      exact Nat.succ_pos _
    · refine (ih.filter _).imp_of_mem ?_
      intro a b ha hb hab
      have hax : a ≠ x := by simpa using (List.mem_filter.mp ha).2
      have hbx : b ≠ x := by simpa using (List.mem_filter.mp hb).2
      rw [List.indexOf_cons_ne _ (Ne.symm hax), List.indexOf_cons_ne _ (Ne.symm hbx)]
      exact Nat.succ_lt_succ hab

theorem trimChars_eq_nil_iff (l : List Char) :
    trimChars l = [] ↔ ∀ c ∈ l, isJSWhitespace c = true := by
  constructor
  · intro h
    have h1 : List.rdropWhile isJSWhitespace (l.dropWhile isJSWhitespace) = [] := h
    rw [List.rdropWhile_eq_nil_iff] at h1
    cases hd : l.dropWhile isJSWhitespace with
    | nil => exact List.dropWhile_eq_nil_iff.mp hd
    | cons c cs =>
      have hc := not_head_of_dropWhile_eq_self _ (List.dropWhile_idempotent _ l) c cs hd
      have hc2 := h1 c (by rw [hd]; exact List.mem_cons_self _ _)
      rw [hc] at hc2
      exact absurd hc2 (by decide)
  · exact trimChars_of_all_whitespace l

theorem nonBlank_iff (d : String) :
    (d ≠ "" ∧ jsTrim d ≠ "") ↔ isBlank (some d) = false := by
  have hdata : ∀ s : String, s = "" ↔ s.data = [] := by
    intro s
    constructor
    · intro h
      rw [h]
    · intro h
      cases s
      simp_all
  have htrim : jsTrim d = "" ↔ ∀ c ∈ d.data, isJSWhitespace c = true := by
    rw [hdata, ← trimChars_eq_nil_iff]
    rfl
  simp only [isBlank, ne_eq, htrim]
  constructor
  · rintro ⟨_, h⟩
    by_contra hb
    apply h
    simpa [List.all_eq_true] using hb
  · intro h
    have hall : ¬ ∀ c ∈ d.data, isJSWhitespace c = true := by
      intro hall
      rw [List.all_eq_true.mpr hall] at h
      exact absurd h (by decide)
    refine ⟨?_, hall⟩
    intro hd
    apply hall
    rw [hd]
    simp

theorem keepDepartment_eq_some (dept : Option String) (d : String) :
    keepDepartment dept = some d ↔ dept = some d ∧ isBlank (some d) = false := by
  cases dept with
  | none => simp [keepDepartment]
  | some v =>
    show (if v ≠ "" ∧ jsTrim v ≠ "" then some v else none) = some d ↔ _
    by_cases hv : v ≠ "" ∧ jsTrim v ≠ ""
    · rw [if_pos hv]
      constructor
      · intro h
        have hvd : v = d := by simpa using h
        subst hvd
        exact ⟨rfl, (nonBlank_iff v).mp hv⟩
      · rintro ⟨h, _⟩
        exact h
    · rw [if_neg hv]
      constructor
      · intro h
        simp at h
      · rintro ⟨h, hb⟩
        have hvd : v = d := by simpa using h
        subst hvd
        exact absurd ((nonBlank_iff v).mpr hb) hv

theorem mem_nonBlankDepartments (users : List RawUser) (d : String) :
    d ∈ nonBlankDepartments users ↔
      ∃ u ∈ users, u.department = some d ∧ isBlank (some d) = false := by
  unfold nonBlankDepartments
  simp only [List.mem_filterMap, List.mem_map, keepDepartment_eq_some]
  constructor
  · rintro ⟨dept, ⟨u, hu, rfl⟩, h⟩
    exact ⟨u, hu, h⟩
  · rintro ⟨u, hu, h⟩
    exact ⟨u.department, ⟨u, hu, rfl⟩, h⟩

theorem nonBlankDepartments_cons (u : RawUser) (users : List RawUser) :
    nonBlankDepartments (u :: users) =
      match keepDepartment u.department with
      | some d => d :: nonBlankDepartments users
      | none => nonBlankDepartments users := by
  unfold nonBlankDepartments
  rw [List.map_cons, List.filterMap_cons]
  cases keepDepartment u.department <;> rfl

theorem firstUserWith_cons (u : RawUser) (users : List RawUser) (d : String) :
    firstUserWith (u :: users) d =
      if u.department = some d then 0 else firstUserWith users d + 1 := by
  unfold firstUserWith
  rw [List.findIdx_cons]
  by_cases h : u.department = some d <;> simp [h]

theorem indexOf_nonBlank_lt_iff (users : List RawUser) (a b : String)
    (ha : isBlank (some a) = false) (hb : isBlank (some b) = false) :
    (nonBlankDepartments users).indexOf a < (nonBlankDepartments users).indexOf b ↔
      firstUserWith users a < firstUserWith users b := by
  induction users with
  | nil => simp [nonBlankDepartments, firstUserWith]
  | cons u users ih =>
    rw [nonBlankDepartments_cons, firstUserWith_cons, firstUserWith_cons]
    by_cases hua : u.department = some a
    · have hka : keepDepartment u.department = some a :=
        (keepDepartment_eq_some _ _).mpr ⟨hua, ha⟩
      rw [hka, if_pos hua]
      simp only [List.indexOf_cons_self]
      by_cases hab : a = b
      · subst hab
        simp [hua]
      · have hub : ¬ u.department = some b := by
          rw [hua]
          exact fun h => hab (Option.some.inj h)
        rw [if_neg hub, List.indexOf_cons_ne _ hab]
        simp
    · rw [if_neg hua]
      by_cases hub : u.department = some b
      · have hkb : keepDepartment u.department = some b :=
          (keepDepartment_eq_some _ _).mpr ⟨hub, hb⟩
        rw [hkb, if_pos hub]
        simp only [List.indexOf_cons_self]
        simp
      · rw [if_neg hub]
        cases hk : keepDepartment u.department with
        | none =>
          simp only
          rw [ih]
          exact Nat.succ_lt_succ_iff.symm
        | some c =>
          have hc := ((keepDepartment_eq_some _ _).mp hk).1
          have hca : c ≠ a := fun h => hua (h ▸ hc)
          have hcb : c ≠ b := fun h => hub (h ▸ hc)
          simp only
          rw [List.indexOf_cons_ne _ hca, List.indexOf_cons_ne _ hcb, Nat.succ_lt_succ_iff, ih]
          exact Nat.succ_lt_succ_iff.symm

theorem nonBlankDepartments_eq_nil_iff (users : List RawUser) :
    nonBlankDepartments users = [] ↔ ∀ u ∈ users, isBlank u.department = true := by
  rw [List.eq_nil_iff_forall_not_mem]
  constructor
  · intro h u hu
    cases hdep : u.department with
    | none => rfl
    | some d =>
      by_contra hb
      exact h d ((mem_nonBlankDepartments users d).mpr ⟨u, hu, hdep, by simpa using hb⟩)
  · intro h d hd
    obtain ⟨u, hu, hdep, hb⟩ := (mem_nonBlankDepartments users d).mp hd
    have := h u hu
    rw [hdep, hb] at this
    exact absurd this (by decide)

theorem uniqueDepts_eq (users : List RawUser) :
    uniqueDepts users =
      if nonBlankDepartments users = [] then ["General"]
      else firstOccurrences (nonBlankDepartments users) := by
  unfold uniqueDepts
  simp only [foldl_setAdd, List.not_mem_nil, not_false_eq_true, decide_True,
    List.filter_true, List.nil_append, List.length_eq_zero]
  have hnil : firstOccurrences (nonBlankDepartments users) = [] ↔
      nonBlankDepartments users = [] := by
    rw [List.eq_nil_iff_forall_not_mem, List.eq_nil_iff_forall_not_mem]
    simp only [mem_firstOccurrences]
  by_cases h : nonBlankDepartments users = []
  · rw [if_pos h, if_pos (hnil.mpr h), hnil.mpr h]
    rfl
  · rw [if_neg h, if_neg (fun h2 => h (hnil.mp h2))]

theorem readOperation_ok {α β : Type} (unwrap : α → Except String β) (authToken : String)
    (endpoint : String) (r : Response α) (htoken : authToken ≠ "") (hok : r.ok = true) :
    (readOperation unwrap authToken (fun _ => .ok r) endpoint).2 = unwrap r.payload := by
  simp [readOperation, fetchWithAuth, htoken, hok]

theorem readOperation_401 {α β : Type} (unwrap : α → Except String β) (authToken : String)
    (endpoint : String) (response : Except String (Response α)) (htoken : authToken ≠ "")
    (h : Answers401 response) :
    (readOperation unwrap authToken (fun _ => response) endpoint).2
      = .error "Authentication failed. Please check your token." := by
  obtain ⟨r, rfl, hok, hstatus⟩ := h
  simp [readOperation, fetchWithAuth, htoken, hok, hstatus]

theorem loadRejection_401 (authToken : String) (r : LoadResponses) (f : RequiredFetch)
    (htoken : authToken ≠ "") (h : r.answers401 f) :
    loadRejection authToken r f = some "Authentication failed. Please check your token." := by
  cases f
  · simp [loadRejection, rejection, fetchUsers,
      readOperation_401 _ _ _ _ htoken (show Answers401 r.users from h)]
  · simp [loadRejection, rejection, fetchProjects,
      readOperation_401 _ _ _ _ htoken (show Answers401 r.projects from h)]
  · simp [loadRejection, rejection, fetchOffices,
      readOperation_401 _ _ _ _ htoken (show Answers401 r.offices from h)]

theorem firstRejection_of_noEarlier {α β γ : Type} (order : List RequiredFetch)
    (users : Except String α) (projects : Except String β) (offices : Except String γ)
    (f : RequiredFetch) (e : String)
    (hfirst : NoEarlierRejection order (rejection users projects offices) f)
    (hf : rejection users projects offices f = some e) :
    firstRejection order users projects offices = some e := by
  obtain ⟨before, after, horder, hbefore⟩ := hfirst
  unfold firstRejection
  rw [horder, List.append_assoc, List.findSome?_append,
    List.findSome?_eq_none_iff.mpr hbefore, List.cons_append,
    List.findSome?_cons_of_isSome _ (by simp [hf]), hf]
  rfl

theorem firstRejection_isSome {α β γ : Type} (order : List RequiredFetch)
    (users : Except String α) (projects : Except String β) (offices : Except String γ)
    (f : RequiredFetch) (e : String) (hf : rejection users projects offices f = some e) :
    ∃ g msg, rejection users projects offices g = some msg ∧
      firstRejection order users projects offices = some msg := by
  cases hfr : firstRejection order users projects offices with
  | none =>
    unfold firstRejection at hfr
    rw [List.findSome?_eq_none_iff] at hfr
    have := hfr f (by cases f <;> simp)
    rw [hf] at this
    exact absurd this (by simp)
  | some msg =>
    unfold firstRejection at hfr
    obtain ⟨_, g, _, _, hg, _⟩ := List.findSome?_eq_some_iff.mp hfr
    exact ⟨g, msg, hg, rfl⟩

theorem promiseAll_ok {α β γ δ : Type} (order : List RequiredFetch) (u : α) (p : β) (o : γ)
    (currentUser : Except String δ) :
    promiseAll order (.ok u) (.ok p) (.ok o) currentUser
      = .ok (u, p, o, match currentUser with | .ok me => some me | .error _ => none) := rfl

theorem promiseAll_error {α β γ δ : Type} (order : List RequiredFetch)
    (users : Except String α) (projects : Except String β) (offices : Except String γ)
    (currentUser : Except String δ) (f : RequiredFetch) (e : String)
    (hf : rejection users projects offices f = some e) :
    promiseAll order users projects offices currentUser
      = .error ((firstRejection order users projects offices).getD "") := by
  cases users <;> cases projects <;> cases offices <;> try rfl
  cases f <;> simp [rejection] at hf

theorem getElem?_tasks (user : RawUser) (projects : List RawProject)
    (offices : List RawOffice) (now : Int) (i : Nat) (p : RawProject)
    (hp : projects[i]? = some p) :
    (transformUserToTeamMember user projects offices now).tasks[i]?
      = some (buildTask user (weeklyCapacity user offices) now p i) := by
  simp [transformUserToTeamMember, buildTasks, getElem?_mapWithIndex, hp]

theorem reversedProject_duration :
    calculateProjectDurationWeeks reversedProject = some (-1) := by
  norm_num [calculateProjectDurationWeeks, reversedProject, bareProject, JSDate.truthy,
    JSDate.time, msPerWeek, Int.ceil_eq_iff]

theorem tenWeekProject_duration :
    calculateProjectDurationWeeks tenWeekProject = some 10 := by
  norm_num [calculateProjectDurationWeeks, tenWeekProject, bareProject, JSDate.truthy,
    JSDate.time, msPerWeek, Int.ceil_eq_iff]

theorem ceil_twelve_weeks : Int.ceil (((12 : Int) : ℚ) / (433 / 100)) = 3 := by
  norm_num [Int.ceil_eq_iff]

theorem calculateDuration_of_twelve (project : RawProject)
    (h : calculateProjectDurationWeeks project = some 12) :
    calculateDuration project = "3 months" := by
  simp only [calculateDuration, h, Option.map_some', ceil_twelve_weeks, nanGt]
  decide

theorem duration_of_missing_date (project : RawProject)
    (h : project.startDate = .absent ∨ project.endDate = .absent) :
    calculateProjectDurationWeeks project = some 12 := by
  rcases h with h | h <;> simp [calculateProjectDurationWeeks, h, JSDate.truthy]

theorem rejection_eq_none_iff {α β γ : Type} (users : Except String α)
    (projects : Except String β) (offices : Except String γ) :
    (∀ f, rejection users projects offices f = none) ↔
      (∃ u p o, users = .ok u ∧ projects = .ok p ∧ offices = .ok o) := by
  constructor
  · intro h
    have hu := h .users
    have hp := h .projects
    have ho := h .offices
    cases users <;> cases projects <;> cases offices <;> simp_all [rejection]
  · rintro ⟨u, p, o, rfl, rfl, rfl⟩ f
    cases f <;> rfl

theorem loadWorkdeckData_ok (s : Controller) (r : LoadResponses) (now : Int)
    (users : List RawUser) (projects : List RawProject) (offices : List RawOffice)
    (htoken : s.authToken ≠ "")
    (hu : (fetchUsers UsersBody.unwrap s.authToken fun _ => r.users).2 = .ok (.users users))
    (hp : (fetchProjects Envelope.unwrap s.authToken fun _ => r.projects).2 = .ok projects)
    (ho : (fetchOffices Envelope.unwrap s.authToken fun _ => r.offices).2 = .ok offices) :
    loadWorkdeckData s r now =
      { beginLoad s with
        departments := uniqueDepts users
        teamData := validTeam users projects offices now
        projects := projects
        lastSync := some now
        loading := false
        pendingLoads := (beginLoad s).pendingLoads.erase s.authToken } := by
  have hout : ∃ me, loadOutcome s.authToken r = .ok (.users users, projects, offices, me) := by
    unfold loadOutcome
    rw [hu, hp, ho, promiseAll_ok]
    exact ⟨_, rfl⟩
  obtain ⟨me, hout⟩ := hout
  simp only [loadWorkdeckData, if_neg htoken, settleLoad, beginLoad, hout]

theorem loadWorkdeckData_notArray (s : Controller) (r : LoadResponses) (now : Int)
    (value : UsersBody) (projects : List RawProject) (offices : List RawOffice)
    (htoken : s.authToken ≠ "")
    (hu : (fetchUsers UsersBody.unwrap s.authToken fun _ => r.users).2 = .ok value)
    (hvalue : ∀ users, value ≠ .users users)
    (hp : (fetchProjects Envelope.unwrap s.authToken fun _ => r.projects).2 = .ok projects)
    (ho : (fetchOffices Envelope.unwrap s.authToken fun _ => r.offices).2 = .ok offices) :
    loadWorkdeckData s r now =
      { beginLoad s with
        error := some (usersMapMessage value)
        loading := false
        pendingLoads := (beginLoad s).pendingLoads.erase s.authToken } := by
  have hout : ∃ me, loadOutcome s.authToken r = .ok (value, projects, offices, me) := by
    unfold loadOutcome
    rw [hu, hp, ho, promiseAll_ok]
    exact ⟨_, rfl⟩
  obtain ⟨me, hout⟩ := hout
  cases value with
  | users records => exact absurd rfl (hvalue records)
  | _ => simp only [loadWorkdeckData, if_neg htoken, settleLoad, beginLoad, hout]

theorem loadWorkdeckData_error (s : Controller) (r : LoadResponses) (now : Int)
    (f : RequiredFetch) (e : String) (htoken : s.authToken ≠ "")
    (hf : loadRejection s.authToken r f = some e) :
    ∃ g message, loadRejection s.authToken r g = some message ∧
      loadWorkdeckData s r now =
        { beginLoad s with
          error := some message
          loading := false
          pendingLoads := (beginLoad s).pendingLoads.erase s.authToken } := by
  obtain ⟨g, message, hg, hfirst⟩ := firstRejection_isSome r.settleOrder _ _ _ f e hf
  refine ⟨g, message, hg, ?_⟩
  have hout : loadOutcome s.authToken r = .error message := by
    unfold loadOutcome
    rw [promiseAll_error _ _ _ _ _ f e hf, hfirst]
    rfl
  simp only [loadWorkdeckData, if_neg htoken, settleLoad, beginLoad, hout]

theorem fetchWithAuth_requests {α : Type} (authToken : String)
    (server : Request → Except String (Response α)) (endpoint : String)
    (options : FetchOptions) (htoken : authToken ≠ "") :
    (fetchWithAuth authToken server endpoint options).1
      = [{ url := WORKDECK_BASE_URL ++ endpoint, method := options.method,
           body := options.body,
           headers := [("Content-Type", "application/json"),
             ("Authorization", "Bearer " ++ authToken)] ++ options.headers }] := by
  unfold fetchWithAuth
  rw [if_neg htoken]
  simp only
  cases server _ with
  | error e => rfl
  | ok response =>
    simp only
    split
    · split
      · rfl
      · split
        · rfl
        · split <;> rfl
    · rfl

theorem readOperation_requests {α β : Type} (unwrap : α → Except String β)
    (authToken : String) (server : Request → Except String (Response α)) (endpoint : String)
    (htoken : authToken ≠ "") :
    (readOperation unwrap authToken server endpoint).1
      = [{ url := WORKDECK_BASE_URL ++ endpoint, method := none, body := none,
           headers := [("Content-Type", "application/json"),
             ("Authorization", "Bearer " ++ authToken)] }] := by
  have h := fetchWithAuth_requests authToken server endpoint noOptions htoken
  unfold readOperation
  cases hres : fetchWithAuth authToken server endpoint noOptions with
  | mk requests out =>
    rw [hres] at h
    cases out <;> simpa [noOptions] using h

theorem createTaskRequest_fails {α : Type} (authToken : String)
    (post : Except String (Response α)) (taskData : TaskData)
    (hfail : authToken = "" ∨ (∃ response, post = .ok response ∧ response.ok = false) ∨
      (∃ e, post = .error e)) :
    ∃ message, (createTaskRequest authToken (fun _ => post) taskData).2 = .error message := by
  unfold createTaskRequest fetchWithAuth
  by_cases htoken : authToken = ""
  · exact ⟨_, by rw [if_pos htoken]⟩
  · rw [if_neg htoken]
    rcases hfail with h | ⟨response, rfl, hok⟩ | ⟨e, rfl⟩
    · exact absurd h htoken
    · simp only [hok, Bool.not_false, if_true]
      split
      · exact ⟨_, rfl⟩
      · split
        · exact ⟨_, rfl⟩
        · split <;> exact ⟨_, rfl⟩
    · exact ⟨_, rfl⟩

theorem toInt32_range (x : Int) : -(2 ^ 31) ≤ toInt32 x ∧ toInt32 x < 2 ^ 31 := by
  unfold toInt32
  omega

theorem hashStep_eq (a : Int) (code : Nat) : hashStep a code = toInt32 (31 * a + code) := by
  unfold hashStep toInt32
  omega

theorem foldl_hashStep_range (codes : List Nat) (init : Int)
    (h : -(2 ^ 31) ≤ init ∧ init < 2 ^ 31) :
    -(2 ^ 31) ≤ codes.foldl hashStep init ∧ codes.foldl hashStep init < 2 ^ 31 := by
  induction codes generalizing init with
  | nil => exact h
  | cons c cs ih =>
    rw [List.foldl_cons]
    exact ih _ (toInt32_range _)

theorem color_of_hash (hash : Int) :
    ∃ color ∈ colors, colors.get? (hash.natAbs % colors.length) = some color ∧
      hash.natAbs % colors.length < 12 := by
  have hlen : colors.length = 12 := rfl
  have hlt : hash.natAbs % colors.length < colors.length := by
    rw [hlen]
    exact Nat.mod_lt _ (by norm_num)
  refine ⟨colors[hash.natAbs % colors.length], List.getElem_mem _, ?_, by rw [← hlen]; exact hlt⟩
  rw [List.get?_eq_getElem?, List.getElem?_eq_getElem hlt]

theorem department_of_blank (user : RawUser) (userProjects : List RawProject)
    (offices : List RawOffice) (now : Int) (h : isBlank user.department = true) :
    (transformUserToTeamMember user userProjects offices now).department ≠ "General" ∧
    ((transformUserToTeamMember user userProjects offices now).department = "Unknown" ∨
      (user.department = some (transformUserToTeamMember user userProjects offices now).department
        ∧ isBlank (some (transformUserToTeamMember user userProjects offices now).department)
          = true)) := by
  simp only [transformUserToTeamMember]
  cases hd : user.department with
  | none => exact ⟨by decide, Or.inl rfl⟩
  | some d =>
    by_cases hempty : d = ""
    · subst hempty
      exact ⟨by decide, Or.inl rfl⟩
    · have hstr : strOr (some d) "Unknown" = d := by simp [strOr, hempty]
      rw [hstr]
      rw [hd] at h
      refine ⟨?_, Or.inr ⟨rfl, h⟩⟩
      intro hgeneral
      rw [hgeneral] at h
      exact absurd h (by decide)

theorem digitChar_ne_dash (k : Nat) (h : k < 10) : Nat.digitChar k ≠ '-' := by
  interval_cases k <;> decide

theorem digitChar_value (k : Nat) (h : k < 10) : (Nat.digitChar k).toNat - 48 = k := by
  interval_cases k <;> rfl

theorem toDigitsCore_append (fuel n : Nat) (ds : List Char) :
    Nat.toDigitsCore 10 fuel n ds = Nat.toDigitsCore 10 fuel n [] ++ ds := by
  induction fuel generalizing n ds with
  | zero => rfl
  | succ fuel ih =>
    simp only [Nat.toDigitsCore]
    split
    · rfl
    · rw [ih (n / 10) (Nat.digitChar (n % 10) :: ds), ih (n / 10) [Nat.digitChar (n % 10)]]
      simp

theorem toDigitsCore_no_dash (fuel n : Nat) :
    ∀ c ∈ Nat.toDigitsCore 10 fuel n [], c ≠ '-' := by
  induction fuel generalizing n with
  | zero => simp [Nat.toDigitsCore]
  | succ fuel ih =>
    intro c hc
    simp only [Nat.toDigitsCore] at hc
    split at hc
    · simp only [List.mem_singleton] at hc
      rw [hc]
      exact digitChar_ne_dash _ (Nat.mod_lt _ (by norm_num))
    · rw [toDigitsCore_append] at hc
      simp only [List.mem_append, List.mem_singleton] at hc
      rcases hc with hc | hc
      · exact ih _ c hc
      · rw [hc]
        exact digitChar_ne_dash _ (Nat.mod_lt _ (by norm_num))

theorem decodeDigits_concat (l : List Char) (c : Char) :
    decodeDigits (l ++ [c]) = 10 * decodeDigits l + (c.toNat - 48) := by
  simp [decodeDigits, List.foldl_append]

theorem decodeDigits_toDigitsCore (fuel n : Nat) (h : n < fuel) :
    decodeDigits (Nat.toDigitsCore 10 fuel n []) = n := by
  induction fuel generalizing n with
  | zero => omega
  | succ fuel ih =>
    simp only [Nat.toDigitsCore]
    split
    · rename_i hz
      simp only [decodeDigits, List.foldl_cons, List.foldl_nil, Nat.mul_zero, Nat.zero_add]
      rw [digitChar_value _ (Nat.mod_lt _ (by norm_num))]
      omega
    · rename_i hz
      rw [toDigitsCore_append, decodeDigits_concat, ih (n / 10) (by omega),
        digitChar_value _ (Nat.mod_lt _ (by norm_num))]
      omega

theorem toDigits_injective (i j : Nat) (h : Nat.toDigits 10 i = Nat.toDigits 10 j) : i = j := by
  have hi := decodeDigits_toDigitsCore (i + 1) i (by omega)
  have hj := decodeDigits_toDigitsCore (j + 1) j (by omega)
  unfold Nat.toDigits at h
  rw [h, hj] at hi
  exact hi.symm

theorem numberToString_index_data (i : Nat) :
    (numberToString (i : Int)).data = Nat.toDigits 10 i := rfl

theorem eq_of_append_cons_eq (c : Char) (l₁ l₂ r₁ r₂ : List Char) (h₁ : c ∉ l₁) (h₂ : c ∉ l₂)
    (h : l₁ ++ c :: r₁ = l₂ ++ c :: r₂) : l₁ = l₂ := by
  induction l₁ generalizing l₂ with
  | nil =>
    cases l₂ with
    | nil => rfl
    | cons x xs =>
      simp only [List.nil_append, List.cons_append, List.cons.injEq] at h
      exact absurd (h.1 ▸ List.mem_cons_self x xs) h₂
  | cons y ys ih =>
    cases l₂ with
    | nil =>
      simp only [List.nil_append, List.cons_append, List.cons.injEq] at h
      exact absurd (h.1 ▸ List.mem_cons_self y ys) h₁
    | cons x xs =>
      simp only [List.cons_append, List.cons.injEq] at h
      rw [h.1, ih xs (fun hm => h₁ (List.mem_cons_of_mem _ hm))
        (fun hm => h₂ (List.mem_cons_of_mem _ hm)) h.2]

theorem suffix_eq_of_append_cons_eq (c : Char) (a b x y : List Char) (hx : c ∉ x)
    (hy : c ∉ y) (h : a ++ c :: x = b ++ c :: y) : x = y := by
  have hr := congrArg List.reverse h
  simp only [List.reverse_append, List.reverse_cons, List.append_assoc,
    List.singleton_append] at hr
  have hrev := eq_of_append_cons_eq c _ _ _ _ (by simpa using hx) (by simpa using hy) hr
  exact List.reverse_injective hrev

theorem buildTask_id_data (user : RawUser) (capacity : ℚ) (now : Int) (p : RawProject)
    (i : Nat) :
    (buildTask user capacity now p i).id.data
      = (user.id.toStr.data ++ '-' :: p.id.toStr.data) ++ '-' :: Nat.toDigits 10 i := by
  have hdash : ("-" : String).data = ['-'] := rfl
  simp only [buildTask, String.data_append, numberToString_index_data, hdash,
    List.append_assoc, List.singleton_append, List.cons_append, List.nil_append]

theorem buildTask_id_ne (user : RawUser) (capacity : ℚ) (now : Int) (p q : RawProject)
    (i j : Nat) (hij : i ≠ j) :
    (buildTask user capacity now p i).id ≠ (buildTask user capacity now q j).id := by
  intro h
  have hdata := congrArg String.data h
  rw [buildTask_id_data, buildTask_id_data] at hdata
  have hdigits := suffix_eq_of_append_cons_eq '-' _ _ _ _
    (fun hm => toDigitsCore_no_dash _ _ _ hm rfl)
    (fun hm => toDigitsCore_no_dash _ _ _ hm rfl) hdata
  exact hij (toDigits_injective i j hdigits)

theorem months_gt_one_iff (w : Int) :
    1 < Int.ceil ((w : ℚ) / (433 / 100)) ↔ 5 ≤ w := by
  rw [Int.lt_ceil]
  constructor
  · intro h
    by_contra hlt
    have h4 : w ≤ 4 := by omega
    have h4q : (w : ℚ) ≤ 4 := by exact_mod_cast h4
    have hdiv : (w : ℚ) / (433 / 100) ≤ 4 / (433 / 100) :=
      div_le_div_of_nonneg_right h4q (by norm_num)
    have : (4 : ℚ) / (433 / 100) < 1 := by norm_num
    have h1 : ((1 : Int) : ℚ) = 1 := by norm_num
    rw [h1] at h
    linarith
  · intro h
    have h5q : (5 : ℚ) ≤ (w : ℚ) := by exact_mod_cast h
    have hdiv : (5 : ℚ) / (433 / 100) ≤ (w : ℚ) / (433 / 100) :=
      div_le_div_of_nonneg_right h5q (by norm_num)
    have : (1 : ℚ) < 5 / (433 / 100) := by norm_num
    have h1 : ((1 : Int) : ℚ) = 1 := by norm_num
    rw [h1]
    linarith

theorem ends_months (x : String) : ((x ++ " months").data.reverse).take 2 = ['s', 'h'] := by
  have h : (" months" : String).data = [' ', 'm', 'o', 'n', 't', 'h', 's'] := rfl
  simp [String.data_append, h]

theorem ends_weeks (x : String) : ((x ++ " weeks").data.reverse).take 2 = ['s', 'k'] := by
  have h : (" weeks" : String).data = [' ', 'w', 'e', 'e', 'k', 's'] := rfl
  simp [String.data_append, h]

theorem months_ne_weeks (x y : String) : x ++ " months" ≠ y ++ " weeks" := by
  intro h
  have h2 := congrArg (fun s : String => (s.data.reverse).take 2) h
  simp only [ends_months, ends_weeks] at h2
  exact absurd h2 (by decide)

theorem months_ne_tbd (x : String) : x ++ " months" ≠ "TBD" := by
  intro h
  have h2 := congrArg (fun s : String => (s.data.reverse).take 2) h
  simp only [ends_months] at h2
  exact absurd h2 (by decide)

theorem weeks_ne_tbd (x : String) : x ++ " weeks" ≠ "TBD" := by
  intro h
  have h2 := congrArg (fun s : String => (s.data.reverse).take 2) h
  simp only [ends_weeks] at h2
  exact absurd h2 (by decide)

theorem calculateDuration_of_weeks (project : RawProject) (w : Int)
    (hw : calculateProjectDurationWeeks project = some w) :
    calculateDuration project =
      if 5 ≤ w then numberToString (Int.ceil ((w : ℚ) / (433 / 100))) ++ " months"
      else if 2 ≤ w then numberToString w ++ " weeks"
      else "TBD" := by
  simp only [calculateDuration, hw, Option.map_some', nanGt, gt_iff_lt, months_gt_one_iff,
    decide_eq_true_eq]
  by_cases h5 : 5 ≤ w
  · simp [h5]
  · by_cases h2 : 2 ≤ w
    · have : 1 < w := by omega
      simp [h5, h2, this]
    · have : ¬ 1 < w := by omega
      simp [h5, h2, this]

theorem mainTimetableJson_map (timeTables : List TimeTable) :
    mainTimetableJson (timeTables.map TimeTable.toJson)
      = (mainTimetable timeTables).map TimeTable.toJson := by
  unfold mainTimetableJson mainTimetable
  rw [List.find?_map]
  have hpred : ((fun tt : TimeTableJson => tt.isMain) ∘ TimeTable.toJson)
      = fun tt : TimeTable => tt.isMain := rfl
  rw [hpred]
  cases timeTables.find? (fun tt => tt.isMain) with
  | some tt => rfl
  | none => cases timeTables <;> rfl

theorem find?_map_toJson (offices : List RawOffice) (id : JSId) :
    (offices.map RawOffice.toJson).find? (fun office => decide (office.id = id))
      = (offices.find? (fun office => decide (office.id = id))).map RawOffice.toJson := by
  rw [List.find?_map]
  rfl

theorem weeklyCapacity_exact (parseFloat : String → ℚ) (user : RawUser)
    (offices : List RawOffice) :
    (exactOps parseFloat).weeklyCapacity user (offices.map RawOffice.toJson)
      = weeklyCapacity user offices := by
  unfold NumberOps.weeklyCapacity weeklyCapacity
  cases user.office with
  | none => rfl
  | some uo =>
    simp only [List.length_map, find?_map_toJson]
    cases offices.find? (fun office => decide (office.id = uo.id)) with
    | none => simp [exactOps]
    | some o =>
      cases htables : o.timeTables with
      | none => simp [exactOps, RawOffice.toJson, htables]
      | some timeTables =>
        simp only [Option.map_some', RawOffice.toJson, htables, List.length_map,
          mainTimetableJson_map]
        cases mainTimetable timeTables with
        | none => simp [exactOps]
        | some tt =>
          cases hday : tt.dayHours with
          | none =>
            simp [exactOps, TimeTable.toJson, hday, NumberOps.truthyField]
          | some h =>
            by_cases h0 : h = 0
            · simp [exactOps, TimeTable.toJson, hday, NumberOps.truthyField, h0]
            · simp [exactOps, TimeTable.toJson, hday, NumberOps.truthyField,
                NumberOps.parseFloatField, h0]

theorem targetHoursPerWeek_exact (parseFloat : String → ℚ) (user : RawUser) (capacity : ℚ)
    (now : Int) (project : RawProject) (index : Nat) :
    (exactOps parseFloat).targetHoursPerWeek capacity project
      = (buildTask user capacity now project index).targetHoursPerWeek := by
  have htotal : (exactOps parseFloat).projectTotalHours project = projectTotalHours project := by
    unfold NumberOps.projectTotalHours projectTotalHours NumberOps.numOr numOr
    cases project.plannedHours <;> cases project.availableHours <;> simp [exactOps]
  have htarget : (exactOps parseFloat).targetWeeklyHours project = targetWeeklyHours project := by
    unfold NumberOps.targetWeeklyHours targetWeeklyHours
    rw [htotal]
    cases calculateProjectDurationWeeks project <;> simp [exactOps]
  unfold NumberOps.targetHoursPerWeek
  rw [htarget]
  rfl

theorem targets_buildTasks (parseFloat : String → ℚ) (user : RawUser) (capacity : ℚ)
    (now : Int) (projects : List RawProject) (start : Nat) :
    (mapWithIndex (buildTask user capacity now) projects start).map
        (fun t => t.targetHoursPerWeek)
      = projects.map ((exactOps parseFloat).targetHoursPerWeek capacity) := by
  induction projects generalizing start with
  | nil => rfl
  | cons p ps ih =>
    simp only [mapWithIndex, List.map_cons, ih,
      targetHoursPerWeek_exact parseFloat user capacity now p start]

theorem scheduledHours_exact (parseFloat : String → ℚ) (tasks : List Task) :
    (exactOps parseFloat).scheduledHours (tasks.map fun t => t.targetHoursPerWeek)
      = scheduledHours tasks := by
  unfold NumberOps.scheduledHours scheduledHours
  rw [List.foldl_map]
  congr 1
  funext sum task
  simp only [exactOps, numOr]
  by_cases h : task.targetHoursPerWeek = 0 <;> simp [h]

theorem memberHours_exact (parseFloat : String → ℚ) (user : RawUser)
    (userProjects : List RawProject) (offices : List RawOffice) (now : Int) :
    (exactOps parseFloat).memberHours user userProjects (offices.map RawOffice.toJson)
      = { capacity := (transformUserToTeamMember user userProjects offices now).capacity
          targets := (transformUserToTeamMember user userProjects offices now).tasks.map
            fun t => t.targetHoursPerWeek
          scheduled := (transformUserToTeamMember user userProjects offices now).scheduled
          utilization :=
            ((transformUserToTeamMember user userProjects offices now).utilization : ℚ) } := by
  have htargets := targets_buildTasks parseFloat user (weeklyCapacity user offices) now
    userProjects 0
  have hsum := scheduledHours_exact parseFloat
    (buildTasks user (weeklyCapacity user offices) now userProjects)
  unfold buildTasks at hsum
  rw [htargets] at hsum
  simp only [NumberOps.memberHours, transformUserToTeamMember, buildTasks, weeklyCapacity_exact,
    htargets, hsum]
  rfl

theorem scheduledHours_concat {F : Type} (ops : NumberOps F) (targets : List F) (target : F) :
    ops.scheduledHours (targets ++ [target])
      = ops.add (ops.scheduledHours targets)
          (if ops.truthy target then target else ops.lit 0) := by
  simp [NumberOps.scheduledHours, List.foldl_append]

/-! ## Theorems -/

/-- C1: every task produced by `transformUserToTeamMember` has
`targetHoursPerWeek` at most `0.6` times the weekly capacity resolved for the
user, which is also the published `capacity` of the member, whatever the
hours and dates of the projects. -/
theorem target_le_capacity_share (user : RawUser) (userProjects : List RawProject)
    (offices : List RawOffice) (now : Int) :
    (transformUserToTeamMember user userProjects offices now).capacity
        = weeklyCapacity user offices ∧
    ∀ t ∈ (transformUserToTeamMember user userProjects offices now).tasks,
      t.targetHoursPerWeek ≤ (6 / 10 : ℚ) * weeklyCapacity user offices := by
  refine ⟨rfl, ?_⟩
  intro t ht
  simp only [transformUserToTeamMember, buildTasks] at ht
  obtain ⟨p, _, i, rfl⟩ := mem_mapWithIndex _ _ _ _ ht
  simp only [buildTask]
  rw [mul_comm]
  exact min_le_right _ _

/-- C2, as stated, fails: with a capacity of 5 hours and one project of 2
planned hours over the default 12 weeks the unrounded sum is `1/6`, the
published `scheduled` is `0.2`, the utilization is `round(3.33) = 3`, but
`round(100 * 0.2 / 5) = 4`. -/
theorem utilization_not_from_published_scheduled :
    (transformUserToTeamMember sampleUser [bareProject] [smallOffice] 0).capacity = 5 ∧
    (transformUserToTeamMember sampleUser [bareProject] [smallOffice] 0).scheduled = 2 / 10 ∧
    (transformUserToTeamMember sampleUser [bareProject] [smallOffice] 0).utilization = 3 ∧
    mathRound (100 *
      (transformUserToTeamMember sampleUser [bareProject] [smallOffice] 0).scheduled /
      (transformUserToTeamMember sampleUser [bareProject] [smallOffice] 0).capacity) = 4 ∧
    (transformUserToTeamMember sampleUser [bareProject] [smallOffice] 0).utilization ≠
      mathRound (100 *
        (transformUserToTeamMember sampleUser [bareProject] [smallOffice] 0).scheduled /
        (transformUserToTeamMember sampleUser [bareProject] [smallOffice] 0).capacity) := by
  have hcap : weeklyCapacity sampleUser [smallOffice] = 5 := by
    norm_num [weeklyCapacity, sampleUser, smallOffice, mainTimetable, JSId.truthy]
  have hsum : scheduledHours (buildTasks sampleUser 5 0 [bareProject]) = 1 / 6 := by
    norm_num [scheduledHours_eq_sum, buildTasks, mapWithIndex, buildTask, targetWeeklyHours,
      calculateProjectDurationWeeks, bareProject, JSDate.truthy, projectTotalHours, numOr]
  simp only [transformUserToTeamMember, hcap, hsum]
  norm_num [mathRound, Int.floor_eq_iff]

/-- C2, amended: in every number arithmetic, that of the engine included,
the utilization of a team member is `Math.round((s / capacity) * 100)`, where
`capacity` is its published capacity and `s` the unrounded sum of the
`targetHoursPerWeek` of its tasks, added in task order from 0, a target that
is falsy counting as 0; the published `scheduled` is
`Math.round(s * 10) / 10`, that same sum rounded to one decimal, and the
utilization is not computed from it.  In exact arithmetic these figures are
the fields of the member that `transformUserToTeamMember` returns. -/
theorem utilization_rounds_quotient_of_sum {F : Type} (ops : NumberOps F) (user : RawUser)
    (userProjects : List RawProject) (offices : List OfficeJson) :
    (ops.memberHours user userProjects offices).capacity = ops.weeklyCapacity user offices ∧
    (ops.memberHours user userProjects offices).targets
      = userProjects.map (ops.targetHoursPerWeek (ops.weeklyCapacity user offices)) ∧
    (ops.memberHours user userProjects offices).utilization
      = ops.round (ops.mul
          (ops.div (ops.scheduledHours (ops.memberHours user userProjects offices).targets)
            (ops.memberHours user userProjects offices).capacity)
          (ops.lit 100)) ∧
    (ops.memberHours user userProjects offices).scheduled
      = ops.div
          (ops.round (ops.mul
            (ops.scheduledHours (ops.memberHours user userProjects offices).targets)
            (ops.lit 10)))
          (ops.lit 10) ∧
    ops.scheduledHours [] = ops.lit 0 ∧
    (∀ targets target, ops.scheduledHours (targets ++ [target])
      = ops.add (ops.scheduledHours targets)
          (if ops.truthy target then target else ops.lit 0)) ∧
    (∀ (parseFloat : String → ℚ) (typed : List RawOffice) (now : Int),
      (exactOps parseFloat).memberHours user userProjects (typed.map RawOffice.toJson)
        = { capacity := (transformUserToTeamMember user userProjects typed now).capacity
            targets := (transformUserToTeamMember user userProjects typed now).tasks.map
              fun t => t.targetHoursPerWeek
            scheduled := (transformUserToTeamMember user userProjects typed now).scheduled
            utilization :=
              ((transformUserToTeamMember user userProjects typed now).utilization : ℚ) }) :=
  ⟨rfl, rfl, rfl, rfl, rfl, scheduledHours_concat ops,
    fun parseFloat typed now => memberHours_exact parseFloat user userProjects typed now⟩

/-- C3, as stated, fails: the same project, whose id is missing, placed at
indices 0 and 1 of one user's project list gets two different colors, because
the color is then taken from the index (`project.id || index`). -/
theorem color_depends_on_index_without_id :
    bareProject.id = JSId.undefined ∧
    (transformUserToTeamMember sampleUser [bareProject, bareProject] [] 0).tasks.map
      (fun t => t.color) = [some "bg-purple-600", some "bg-blue-600"] := by
  decide

/-- C3, amended: for a project whose id is truthy (a non-empty string or a
non-zero number) the color of its task is `getProjectColor` of that id, so two
projects with the same truthy id get the same color at any two indices of any
two users' project lists; for a project whose id is missing, `null`, empty or
zero the color is `getProjectColor` of its index in the list. -/
theorem color_function_of_truthy_id (user user2 : RawUser)
    (projects projects2 : List RawProject) (offices offices2 : List RawOffice)
    (now now2 : Int) (i j : Nat) (p q : RawProject)
    (hp : projects[i]? = some p) (hq : projects2[j]? = some q) :
    ((transformUserToTeamMember user projects offices now).tasks[i]?).map (fun t => t.color)
      = some (if p.id.truthy then getProjectColor p.id else getProjectColor (.num (i : Int))) ∧
    (p.id = q.id → p.id.truthy = true →
      ((transformUserToTeamMember user projects offices now).tasks[i]?).map (fun t => t.color)
        = ((transformUserToTeamMember user2 projects2 offices2 now2).tasks[j]?).map
            (fun t => t.color)) := by
  have key : ∀ (u : RawUser) (ps : List RawProject) (os : List RawOffice) (n : Int)
      (k : Nat) (r : RawProject), ps[k]? = some r →
      ((transformUserToTeamMember u ps os n).tasks[k]?).map (fun t => t.color)
        = some (if r.id.truthy then getProjectColor r.id
            else getProjectColor (.num (k : Int))) := by
    intro u ps os n k r hr
    simp only [transformUserToTeamMember, buildTasks, getElem?_mapWithIndex, hr,
      Option.map_some', buildTask, JSId.orElse, Nat.zero_add]
    split <;> rfl
  refine ⟨key _ _ _ _ _ _ hp, ?_⟩
  intro hid htruthy
  rw [key _ _ _ _ _ _ hp, key _ _ _ _ _ _ hq, ← hid, htruthy]
  simp

/-- C3 witness: projects `p1` at index 0 of one list and at index 1 of another. -/
theorem color_function_of_truthy_id_witness :
    ((transformUserToTeamMember sampleUser
        [{ bareProject with id := .str "p1" }] [] 0).tasks[0]?).map (fun t => t.color)
      = ((transformUserToTeamMember sampleUser
        [bareProject, { bareProject with id := .str "p1" }] [smallOffice] 5).tasks[1]?).map
          (fun t => t.color) :=
  (color_function_of_truthy_id sampleUser sampleUser
    [{ bareProject with id := .str "p1" }]
    [bareProject, { bareProject with id := .str "p1" }] [] [smallOffice] 0 5 0 1
    { bareProject with id := .str "p1" } { bareProject with id := .str "p1" }
    rfl rfl).2 rfl (by decide)

/-- C4: when the user has no (truthy) office id, or no office of the list has
that id, or the matching office (the first one with that id) has no
timetables, the weekly capacity computed by `transformUserToTeamMember` is
exactly 40. -/
theorem capacity_default_forty (user : RawUser) (offices : List RawOffice)
    (h : (∀ uo, user.office = some uo → uo.id.truthy = false) ∨
      (∀ uo, user.office = some uo → ∀ o ∈ offices, o.id ≠ uo.id) ∨
      (∀ uo, user.office = some uo → ∀ o,
        offices.find? (fun office => decide (office.id = uo.id)) = some o →
          o.timeTables = none ∨ o.timeTables = some [])) :
    weeklyCapacity user offices = 40 ∧
    ∀ (userProjects : List RawProject) (now : Int),
      (transformUserToTeamMember user userProjects offices now).capacity = 40 := by
  have main : weeklyCapacity user offices = 40 := by
    unfold weeklyCapacity
    cases hoff : user.office with
    | none => rfl
    | some uo =>
      simp only
      by_cases hcond : (uo.id.truthy && decide (offices.length > 0)) = true
      · rw [if_pos hcond]
        cases hfind : offices.find? (fun office => decide (office.id = uo.id)) with
        | none => rfl
        | some userOffice =>
          simp only
          rcases h with h | h | h
          · have := h uo hoff
            simp [this] at hcond
          · have hmem := List.mem_of_find?_eq_some hfind
            have hid := List.find?_some hfind
            simp only [decide_eq_true_eq] at hid
            exact absurd hid (h uo hoff userOffice hmem)
          · rcases h uo hoff userOffice hfind with ht | ht
            · rw [ht]
            · rw [ht]
              simp
      · rw [if_neg hcond]
  exact ⟨main, fun _ _ => main⟩

/-- C4 witness: a user whose office id matches no office of the list. -/
theorem capacity_default_forty_witness :
    weeklyCapacity sampleUser [{ smallOffice with id := .num 8 }] = 40 :=
  (capacity_default_forty sampleUser [{ smallOffice with id := .num 8 }]
    (Or.inr (Or.inl (by decide)))).1

/-- C5: for the project at any index of a user's project list, the task's
`isLongTerm` flag is true exactly when `totalHours > 200` or
`durationWeeks > 12`, where `totalHours` (plannedHours, else availableHours,
else 0) and `durationWeeks` are the values from which the same task's
`targetHoursPerWeek` is computed (`durationWeeks = none` is `NaN`, for which
every comparison is false). -/
theorem isLongTerm_iff (user : RawUser) (projects : List RawProject)
    (offices : List RawOffice) (now : Int) (i : Nat) (p : RawProject)
    (hp : projects[i]? = some p) :
    ∃ t, (transformUserToTeamMember user projects offices now).tasks[i]? = some t ∧
      (t.isLongTerm = true ↔
        (projectTotalHours p > 200 ∨
          ∃ w, calculateProjectDurationWeeks p = some w ∧ w > 12)) ∧
      projectTotalHours p
        = (match p.plannedHours with
            | some h => if h ≠ 0 then h
                else (match p.availableHours with
                  | some a => if a ≠ 0 then a else 0
                  | none => 0)
            | none => (match p.availableHours with
                  | some a => if a ≠ 0 then a else 0
                  | none => 0)) ∧
      t.targetHoursPerWeek
        = min (match calculateProjectDurationWeeks p with
            | some w => if w > 0 then projectTotalHours p / (w : ℚ) else 0
            | none => 0)
          (weeklyCapacity user offices * (6 / 10)) := by
  refine ⟨buildTask user (weeklyCapacity user offices) now p i, ?_, ?_, ?_, ?_⟩
  · simp [transformUserToTeamMember, buildTasks, getElem?_mapWithIndex, hp]
  · simp only [buildTask, isLongTermProject, projectTotalHours, Bool.or_eq_true,
      decide_eq_true_eq]
    constructor
    · rintro (h | h)
      · exact Or.inl h
      · right
        cases hw : calculateProjectDurationWeeks p with
        | none => simp [hw, nanGt] at h
        | some w =>
          refine ⟨w, rfl, ?_⟩
          simpa [hw, nanGt] using h
    · rintro (h | ⟨w, hw, h⟩)
      · exact Or.inl h
      · right
        simp [hw, nanGt, h]
  · unfold projectTotalHours numOr
    cases p.plannedHours <;> cases p.availableHours <;> rfl
  · simp only [buildTask, targetWeeklyHours]

/-- C5 witness: a project of 250 planned hours without dates is long-term. -/
theorem isLongTerm_iff_witness :
    ((transformUserToTeamMember sampleUser
        [{ bareProject with plannedHours := some 250 }] [] 0).tasks[0]?).map
      (fun t => t.isLongTerm) = some true := by
  obtain ⟨t, ht, hiff, _, _⟩ := isLongTerm_iff sampleUser
    [{ bareProject with plannedHours := some 250 }] [] 0 0
    { bareProject with plannedHours := some 250 } rfl
  have hlong : t.isLongTerm = true := by
    refine hiff.2 (Or.inl ?_)
    norm_num [projectTotalHours, numOr, bareProject]
  rw [ht, Option.map_some', hlong]

/-- C6: the team list stored by `loadWorkdeckData` is the list of transformed
members, in the order of the users, from which exactly the members with an
empty name or the name `Unknown User` are removed; so no stored member has
such a name, and a user whose first and last name are both missing, empty or
white space only is named `Unknown User` and never stored. -/
theorem validTeam_filters_unknown (users : List RawUser) (projects : List RawProject)
    (offices : List RawOffice) (now : Int) :
    validTeam users projects offices now
      = (transformedTeam users projects offices now).filter
          (fun m => decide (m.name ≠ "" ∧ m.name ≠ "Unknown User")) ∧
    transformedTeam users projects offices now
      = users.map (fun u => transformUserToTeamMember u (userProjects u projects) offices now) ∧
    (∀ m ∈ validTeam users projects offices now, m.name ≠ "" ∧ m.name ≠ "Unknown User") ∧
    (∀ (u : RawUser) (ps : List RawProject),
      isBlank u.firstName = true → isBlank u.lastName = true →
        (transformUserToTeamMember u ps offices now).name = "Unknown User" ∧
        transformUserToTeamMember u ps offices now ∉ validTeam users projects offices now) := by
  have hfilter : validTeam users projects offices now
      = (transformedTeam users projects offices now).filter
          (fun m => decide (m.name ≠ "" ∧ m.name ≠ "Unknown User")) := by
    unfold validTeam
    apply List.filter_congr
    intro m hm
    simp only [transformedTeam, List.mem_map] at hm
    obtain ⟨u, _, rfl⟩ := hm
    rcases name_cases u (userProjects u projects) offices now with h | ⟨h, hne⟩
    · simp [h]
    · have htrim : jsTrim (fullName u) = fullName u := by
        unfold fullName
        exact jsTrim_idem _
      simp [h, htrim, hne]
  have hmem : ∀ m ∈ validTeam users projects offices now,
      m.name ≠ "" ∧ m.name ≠ "Unknown User" := by
    intro m hm
    rw [hfilter, List.mem_filter] at hm
    simpa using hm.2
  refine ⟨hfilter, rfl, hmem, ?_⟩
  intro u ps hf hl
  have hname : (transformUserToTeamMember u ps offices now).name = "Unknown User" := by
    simp [transformUserToTeamMember, strOr, fullName_of_blank u hf hl]
  exact ⟨hname, fun hin => (hmem _ hin).2 hname⟩

/-- C6 witness: a user whose first name is blank and whose last name is missing. -/
theorem validTeam_filters_unknown_witness :
    (transformUserToTeamMember { sampleUser with firstName := some "  " }
        [] [] 0).name = "Unknown User" ∧
    transformUserToTeamMember { sampleUser with firstName := some "  " } [] [] 0
      ∉ validTeam [sampleUser, { sampleUser with firstName := some "  " }] [] [] 0 :=
  (validTeam_filters_unknown [sampleUser, { sampleUser with firstName := some "  " }]
    [] [] 0).2.2.2 { sampleUser with firstName := some "  " } [] (by decide) (by decide)

/-- C7: the projects associated with a user are exactly the projects of the
list in which the user's id equals some `members[].user.id` or some
`activities[].tasks[].participants[].user.id`; they keep the order of the
project list, and every occurrence of a project in the input is attached
exactly once when it matches (by either clause, or both, or through several
members or participants) and not at all otherwise; one task is built per
attached project. -/
theorem userProjects_exact (user : RawUser) (projects : List RawProject)
    (offices : List RawOffice) (now : Int) :
    (∀ p, p ∈ userProjects user projects ↔
      p ∈ projects ∧ (AssociatedByMember user p ∨ AssociatedByParticipant user p)) ∧
    (userProjects user projects).Sublist projects ∧
    (∀ p, (AssociatedByMember user p ∨ AssociatedByParticipant user p) →
      (userProjects user projects).count p = projects.count p) ∧
    (∀ p, (userProjects user projects).count p ≤ projects.count p) ∧
    (transformUserToTeamMember user (userProjects user projects) offices now).tasks.length
      = (userProjects user projects).length := by
  refine ⟨?_, ?_, ?_, ?_, ?_⟩
  · intro p
    unfold userProjects
    rw [List.mem_filter, userProjects_pred_iff]
  · exact List.filter_sublist _
  · intro p hp
    unfold userProjects
    rw [List.count_filter]
    exact (userProjects_pred_iff user p).mpr hp
  · intro p
    exact (List.filter_sublist _).count_le p
  · simp [transformUserToTeamMember, buildTasks, length_mapWithIndex]

/-- C7 witness: a project matching both clauses, twice through its members, is
attached once. -/
theorem userProjects_exact_witness :
    (userProjects sampleUser [bareProject, sharedProject]).count sharedProject = 1 :=
  ((userProjects_exact sampleUser [bareProject, sharedProject] [] 0).2.2.1 sharedProject
    (Or.inl ⟨_, rfl, _, List.mem_cons_self _ _, rfl⟩)).trans
    (by simp [List.count_cons, sharedProject, bareProject])

/-- C8, as stated, fails twice: a user whose department is white space only has
a department that is neither missing nor empty, yet the list is the fallback
`General`; and users of the departments `General` and `Ops` give a list of
departments that contains `General`. -/
theorem uniqueDepts_counterexamples :
    ({ sampleUser with department := some "   " } : RawUser).department ≠ none ∧
    ({ sampleUser with department := some "   " } : RawUser).department ≠ some "" ∧
    uniqueDepts [{ sampleUser with department := some "   " }] = ["General"] ∧
    uniqueDepts [{ sampleUser with department := some "General" },
      { sampleUser with department := some "Ops" }] = ["General", "Ops"] := by
  decide

/-- C8, amended: when every user's department is missing, empty or white
space only, the department list is exactly `General`; otherwise it is the list
of the distinct non-blank department strings of the users, without
repetition and in the order of their first occurrence in the users list, and
it contains `General` only when that is the department of some user. -/
theorem uniqueDepts_spec (users : List RawUser) :
    ((∀ u ∈ users, isBlank u.department = true) → uniqueDepts users = ["General"]) ∧
    ((∃ u ∈ users, isBlank u.department = false) →
      (uniqueDepts users).Nodup ∧
      (∀ d, d ∈ uniqueDepts users ↔
        ∃ u ∈ users, u.department = some d ∧ isBlank (some d) = false) ∧
      (uniqueDepts users).Pairwise (fun a b =>
        firstUserWith users a < firstUserWith users b) ∧
      ("General" ∈ uniqueDepts users ↔ ∃ u ∈ users, u.department = some "General")) := by
  constructor
  · intro h
    rw [uniqueDepts_eq, if_pos ((nonBlankDepartments_eq_nil_iff users).mpr h)]
  · rintro ⟨u, hu, hb⟩
    have hne : nonBlankDepartments users ≠ [] := by
      intro hnil
      have := (nonBlankDepartments_eq_nil_iff users).mp hnil u hu
      rw [hb] at this
      exact absurd this (by decide)
    have hmem : ∀ d, d ∈ uniqueDepts users ↔
        ∃ u ∈ users, u.department = some d ∧ isBlank (some d) = false := by
      intro d
      rw [uniqueDepts_eq, if_neg hne, mem_firstOccurrences, mem_nonBlankDepartments]
    refine ⟨?_, hmem, ?_, ?_⟩
    · rw [uniqueDepts_eq, if_neg hne]
      exact nodup_firstOccurrences _
    · rw [uniqueDepts_eq, if_neg hne]
      refine (pairwise_firstOccurrences _).imp_of_mem ?_
      intro a b ha hb2 hab
      rw [mem_firstOccurrences, mem_nonBlankDepartments] at ha hb2
      obtain ⟨_, _, _, hba⟩ := ha
      obtain ⟨_, _, _, hbb⟩ := hb2
      exact (indexOf_nonBlank_lt_iff _ a b hba hbb).mp hab
    · rw [hmem]
      constructor
      · rintro ⟨v, hv, hdep, _⟩
        exact ⟨v, hv, hdep⟩
      · rintro ⟨v, hv, hdep⟩
        exact ⟨v, hv, hdep, by decide⟩

/-- C8 witness: three users of the departments `Ops`, none and `Ops`. -/
theorem uniqueDepts_spec_witness :
    (uniqueDepts [{ sampleUser with department := some "Ops" }, sampleUser,
        { sampleUser with department := some "Ops" }]).Nodup :=
  ((uniqueDepts_spec [{ sampleUser with department := some "Ops" }, sampleUser,
      { sampleUser with department := some "Ops" }]).2
    ⟨{ sampleUser with department := some "Ops" }, List.mem_cons_self _ _, by decide⟩).1

/-- C9, as stated, fails: a task whose priority is the number 0 is sent with
importance 2, not with its priority. -/
theorem importance_of_zero_priority :
    (createTaskBody { designTask with priority := some 0 }).importance = 2 ∧
    (createTaskBody { designTask with priority := some 0 }).importance ≠ 0 := by
  decide

/-- C9, amended: the POST body built by `createWorkdeckTask` carries the name,
the project id, `plannedHours` as the decimal string of `estimatedHours`,
`importance` equal to the priority when it is present and not zero and to 2
when it is absent or zero, and exactly one participant with the user id,
`isOwner` true, the same `plannedHours` string and percentage 100; with a token
it is sent in one POST request to the create-task command; for the task
`Design` of project `p1`, 20 hours and user `u1`, `plannedHours` is the string
`20`, the importance is 2 and the percentage of the participant is 100. -/
theorem createTaskBody_spec {α : Type} (taskData : TaskData) (authToken : String)
    (server : Request → Except String (Response α)) :
    (createTaskBody taskData).name = taskData.name ∧
    (createTaskBody taskData).projectId = taskData.projectId ∧
    (createTaskBody taskData).plannedHours = numberToString taskData.estimatedHours ∧
    (∀ p, taskData.priority = some p → p ≠ 0 → (createTaskBody taskData).importance = p) ∧
    (taskData.priority = none ∨ taskData.priority = some 0 →
      (createTaskBody taskData).importance = 2) ∧
    (createTaskBody taskData).participants
      = [{ userId := taskData.userId, isOwner := true,
           plannedHours := numberToString taskData.estimatedHours, percentage := 100 }] ∧
    (authToken ≠ "" →
      (createTaskRequest authToken server taskData).1
        = [{ url := "https://test-api.workdeck.com/commands/sync/create-task",
             method := some "POST", body := some (createTaskBody taskData),
             headers := [("Content-Type", "application/json"),
               ("Authorization", "Bearer " ++ authToken)] }]) ∧
    (createTaskBody designTask).plannedHours = "20" ∧
    (createTaskBody designTask).importance = 2 ∧
    (createTaskBody designTask).participants.map (fun x => x.percentage) = [100] := by
  refine ⟨rfl, rfl, rfl, ?_, ?_, rfl, ?_, by decide, by decide, by decide⟩
  · intro p hp hne
    simp [createTaskBody, hp, hne]
  · rintro (h | h) <;> simp [createTaskBody, h]
  · intro htoken
    unfold createTaskRequest fetchWithAuth
    rw [if_neg htoken]
    have hurl : WORKDECK_BASE_URL ++ "/commands/sync/create-task"
        = "https://test-api.workdeck.com/commands/sync/create-task" := by decide
    simp only [hurl, List.append_nil]
    cases server _ with
    | error e => rfl
    | ok response =>
      simp only
      split
      · split
        · rfl
        · split
          · rfl
          · split <;> rfl
      · rfl

/-- C9 witness: a task of priority 3 is sent with importance 3. -/
theorem createTaskBody_spec_witness :
    (createTaskBody { designTask with priority := some 3 }).importance = 3 :=
  (createTaskBody_spec { designTask with priority := some 3 } "token"
    (fun _ => Except.ok unauthorized)).2.2.2.1 3 rfl (by decide)

/-- C10: with a response whose `ok` flag says that the status is in 200-299,
`fetchWithAuth` fails with the missing-token message and issues no request
when the token is absent; with a token it issues one request and fails with
the authentication message on 401, the access-denied message on 403, the
not-found message on 404 and a message carrying the status code and text on
every other non-ok response; it returns the payload if and only if a token is
present and the response is ok. -/
theorem fetchWithAuth_outcomes {α : Type} (authToken endpoint : String)
    (options : FetchOptions) (r : Response α)
    (hwf : r.ok = decide (200 ≤ r.status ∧ r.status ≤ 299)) :
    (authToken = "" →
      fetchWithAuth authToken (fun _ => .ok r) endpoint options
        = ([], .error "No authentication token available")) ∧
    (authToken ≠ "" →
      (fetchWithAuth authToken (fun _ => .ok r) endpoint options).1.length = 1) ∧
    (authToken ≠ "" → r.status = 401 →
      (fetchWithAuth authToken (fun _ => .ok r) endpoint options).2
        = .error "Authentication failed. Please check your token.") ∧
    (authToken ≠ "" → r.status = 403 →
      (fetchWithAuth authToken (fun _ => .ok r) endpoint options).2
        = .error "Access denied. You may not have permission to access this resource.") ∧
    (authToken ≠ "" → r.status = 404 →
      (fetchWithAuth authToken (fun _ => .ok r) endpoint options).2
        = .error "Resource not found. The requested endpoint may not exist.") ∧
    (authToken ≠ "" → r.ok = false → r.status ≠ 401 → r.status ≠ 403 → r.status ≠ 404 →
      (fetchWithAuth authToken (fun _ => .ok r) endpoint options).2
        = .error ("API Error: " ++ toString r.status ++ " " ++ r.statusText)) ∧
    ((fetchWithAuth authToken (fun _ => .ok r) endpoint options).2 = .ok r.payload ↔
      (authToken ≠ "" ∧ r.ok = true)) ∧
    ((∃ a, (fetchWithAuth authToken (fun _ => .ok r) endpoint options).2 = .ok a) ↔
      (authToken ≠ "" ∧ r.ok = true)) := by
  have hnotok : ∀ n, r.status = n → ¬ (200 ≤ n ∧ n ≤ 299) → r.ok = false := by
    intro n hn hrange
    rw [hwf, hn]
    exact decide_eq_false hrange
  refine ⟨?_, ?_, ?_, ?_, ?_, ?_, ?_, ?_⟩
  · intro h
    simp [fetchWithAuth, h]
  · intro h
    simp only [fetchWithAuth, if_neg h]
    split
    · split
      · rfl
      · split
        · rfl
        · split <;> rfl
    · rfl
  · intro h hs
    have hok := hnotok 401 hs (by omega)
    simp [fetchWithAuth, h, hok, hs]
  · intro h hs
    have hok := hnotok 403 hs (by omega)
    simp [fetchWithAuth, h, hok, hs]
  · intro h hs
    have hok := hnotok 404 hs (by omega)
    simp [fetchWithAuth, h, hok, hs]
  · intro h hok h1 h2 h3
    simp [fetchWithAuth, h, hok, h1, h2, h3]
  · by_cases h : authToken = ""
    · simp [fetchWithAuth, h]
    · cases hok : r.ok with
      | true => simp [fetchWithAuth, h, hok]
      | false =>
        simp only [fetchWithAuth, if_neg h, hok, Bool.not_false, if_true]
        split
        · simp
        · split
          · simp
          · split <;> simp
  · by_cases h : authToken = ""
    · simp [fetchWithAuth, h]
    · cases hok : r.ok with
      | true => simp [fetchWithAuth, h, hok]
      | false =>
        simp only [fetchWithAuth, if_neg h, hok, Bool.not_false, if_true]
        split
        · simp
        · split
          · simp
          · split <;> simp

/-- C10 witness: a 401 answer to a call made with a token. -/
theorem fetchWithAuth_outcomes_witness :
    (fetchWithAuth "secret" (fun _ => .ok unauthorized) "/queries/users"
      { method := none, body := none, headers := [] }).2
      = .error "Authentication failed. Please check your token." :=
  (fetchWithAuth_outcomes "secret" "/queries/users"
    { method := none, body := none, headers := [] } unauthorized
    (by decide)).2.2.1 (by decide) rfl


/-- C11, as stated, fails: for the successful payload whose `result` field is
present with the value `null`, `fetchUsers` returns the raw payload, not the
value of the field. -/
theorem read_keeps_envelope_of_null_result :
    lookupField "result" [("result", Json.null)] = some Json.null ∧
    (fetchUsers unwrapResult "secret" fun _ => .ok (respond 200 "OK" nullEnvelope)).2
      = .ok nullEnvelope ∧
    (fetchUsers unwrapResult "secret" fun _ => .ok (respond 200 "OK" nullEnvelope)).2
      ≠ .ok Json.null := by
  refine ⟨rfl, rfl, ?_⟩
  intro h
  have h2 : (Except.ok nullEnvelope : Except String Json) = .ok Json.null := h
  simp [nullEnvelope] at h2

/-- C11, amended: for every successful response, each of the four read
operations returns the value of the `result` field when that field is present
and truthy, and returns the raw payload when the payload is not `null` and
its `result` field is absent or falsy (`null`, `0`, `false` or the empty
string); on a `null` payload the read fails. -/
theorem read_unwraps_truthy_result (authToken : String) (r : Response Json)
    (htoken : authToken ≠ "") (hok : r.ok = true) :
    ∀ read ∈ [fetchUsers unwrapResult, fetchProjects unwrapResult,
        fetchOffices unwrapResult, fetchMyUser unwrapResult],
      (∀ fields v, r.payload = .obj fields → lookupField "result" fields = some v →
        v.truthy = true → (read authToken fun _ => .ok r).2 = .ok v) ∧
      (∀ fields v, r.payload = .obj fields → lookupField "result" fields = some v →
        v.truthy = false → (read authToken fun _ => .ok r).2 = .ok r.payload) ∧
      (∀ fields, r.payload = .obj fields → lookupField "result" fields = none →
        (read authToken fun _ => .ok r).2 = .ok r.payload) ∧
      ((∀ fields, r.payload ≠ .obj fields) → r.payload ≠ .null →
        (read authToken fun _ => .ok r).2 = .ok r.payload) ∧
      (r.payload = .null → (read authToken fun _ => .ok r).2 = .error nullReadMessage) := by
  have key : ∀ endpoint,
      (readOperation unwrapResult authToken (fun _ => .ok r) endpoint).2
        = unwrapResult r.payload :=
    fun endpoint => readOperation_ok unwrapResult authToken endpoint r htoken hok
  have main : ∀ out : Except String Json, out = unwrapResult r.payload →
      (∀ fields v, r.payload = .obj fields → lookupField "result" fields = some v →
        v.truthy = true → out = .ok v) ∧
      (∀ fields v, r.payload = .obj fields → lookupField "result" fields = some v →
        v.truthy = false → out = .ok r.payload) ∧
      (∀ fields, r.payload = .obj fields → lookupField "result" fields = none →
        out = .ok r.payload) ∧
      ((∀ fields, r.payload ≠ .obj fields) → r.payload ≠ .null → out = .ok r.payload) ∧
      (r.payload = .null → out = .error nullReadMessage) := by
    intro out hout
    subst hout
    refine ⟨?_, ?_, ?_, ?_, ?_⟩
    · intro fields v hp hl ht
      simp [unwrapResult, hp, Json.result, hl, ht]
    · intro fields v hp hl ht
      simp [unwrapResult, hp, Json.result, hl, ht]
    · intro fields hp hl
      simp [unwrapResult, hp, Json.result, hl]
    · intro hobj hnull
      cases hpay : r.payload with
      | null => exact absurd hpay hnull
      | obj fields => exact absurd hpay (hobj fields)
      | bool b => simp [unwrapResult, Json.result]
      | num q => simp [unwrapResult, Json.result]
      | str t => simp [unwrapResult, Json.result]
      | arr items => simp [unwrapResult, Json.result]
    · intro hp
      simp [unwrapResult, hp, Json.result]
  intro read hread
  simp only [List.mem_cons, List.mem_singleton, List.not_mem_nil, or_false] at hread
  rcases hread with h | h | h | h <;> subst h
  · exact main _ (key "/queries/users")
  · exact main _ (key "/queries/projects-summary")
  · exact main _ (key "/queries/offices")
  · exact main _ (key "/queries/me")

/-- C11 witness: the users wrapped in a truthy `result` are unwrapped. -/
theorem read_unwraps_truthy_result_witness :
    (fetchUsers unwrapResult "secret"
      fun _ => .ok (respond 200 "OK" (Json.obj [("result", Json.arr [])]))).2
      = .ok (Json.arr []) :=
  (read_unwraps_truthy_result "secret" (respond 200 "OK" (Json.obj [("result", Json.arr [])]))
    (by decide) rfl (fetchUsers unwrapResult) (List.mem_cons_self _ _)).1
    [("result", Json.arr [])] (Json.arr []) rfl rfl rfl

/-- C12, as stated, fails twice: when the users read answers 401 but the
projects read has already failed at the transport level, the error is the
transport message, not the authentication message; and when the load is
started while the token form is open over the dashboard, the page rendered
after the 401 is the token form, not the error panel. -/
theorem load_401_not_always_reported :
    raceLoad.answers401 .users ∧
    firstRender.authToken = "secret" ∧
    (loadWorkdeckData firstRender raceLoad 0).error = some "Failed to fetch" ∧
    unauthorizedLoad.answers401 .users ∧
    (updateToken readyState).authToken = "secret" ∧
    (loadWorkdeckData (updateToken readyState) unauthorizedLoad 0).error
      = some "Authentication failed. Please check your token." ∧
    render (loadWorkdeckData (updateToken readyState) unauthorizedLoad 0) = .tokenForm := by
  refine ⟨⟨_, rfl, rfl, rfl⟩, by decide, by decide, ⟨_, rfl, rfl, rfl⟩, by decide, by decide,
    by decide⟩

/-- C12, amended: when a load is started with a token present and the token
form closed, and a required read answers 401 while every required read that
settles before it succeeds, the load ends in Failed: `loading` is false, the
error is the authentication-failure message and the page rendered is the
error panel; from that state the Update Token action renders the token
form. -/
theorem load_fails_on_first_401 (s : Controller) (r : LoadResponses) (now : Int)
    (f : RequiredFetch) (htoken : s.authToken ≠ "") (hmodal : s.showTokenModal = false)
    (h401 : r.answers401 f)
    (hfirst : NoEarlierRejection r.settleOrder (loadRejection s.authToken r) f) :
    (loadWorkdeckData s r now).loading = false ∧
    (loadWorkdeckData s r now).error
      = some "Authentication failed. Please check your token." ∧
    render (loadWorkdeckData s r now) = .errorPanel ∧
    render (updateToken (loadWorkdeckData s r now)) = .tokenForm := by
  have hrej := loadRejection_401 s.authToken r f htoken h401
  have hfr := firstRejection_of_noEarlier _ _ _ _ f _ hfirst hrej
  have hout : loadOutcome s.authToken r
      = .error "Authentication failed. Please check your token." := by
    unfold loadOutcome
    rw [promiseAll_error _ _ _ _ _ f _ hrej, hfr]
    rfl
  have hfinal : loadWorkdeckData s r now =
      { beginLoad s with
        error := some "Authentication failed. Please check your token."
        loading := false
        pendingLoads := (beginLoad s).pendingLoads.erase s.authToken } := by
    simp only [loadWorkdeckData, if_neg htoken, settleLoad, beginLoad, hout]
  rw [hfinal]
  simp [render, updateToken, beginLoad, htoken, hmodal, strTruthy]

/-- C12 witness: the load started after a first render with a stored token,
when the users read answers 401 and the others succeed. -/
theorem load_fails_on_first_401_witness :
    render (loadWorkdeckData firstRender unauthorizedLoad 0) = .errorPanel ∧
    render (updateToken (loadWorkdeckData firstRender unauthorizedLoad 0)) = .tokenForm :=
  (load_fails_on_first_401 firstRender unauthorizedLoad 0 .users (by decide)
    (by decide) ⟨_, rfl, rfl, rfl⟩ ⟨[], [.projects, .offices], rfl, by simp⟩).2.2

/-- C13, as stated, fails: for a project of 10 hours whose end date is one
week before its start date, `durationWeeks` is `-1` and `targetWeeklyHours`
is `0`, not `totalHours / durationWeeks = -10`; the task's target is `0`, not
`min(-10, 24)`. -/
theorem target_zero_for_negative_duration :
    calculateProjectDurationWeeks reversedProject = some (-1) ∧
    projectTotalHours reversedProject = 10 ∧
    targetWeeklyHours reversedProject = 0 ∧
    targetWeeklyHours reversedProject ≠ projectTotalHours reversedProject / ((-1 : Int) : ℚ) ∧
    (buildTask sampleUser 40 0 reversedProject 0).targetHoursPerWeek = 0 ∧
    (buildTask sampleUser 40 0 reversedProject 0).targetHoursPerWeek
      ≠ min (projectTotalHours reversedProject / ((-1 : Int) : ℚ)) (6 / 10 * 40) := by
  have htotal : projectTotalHours reversedProject = 10 := by
    norm_num [projectTotalHours, numOr, reversedProject, bareProject]
  have htarget : targetWeeklyHours reversedProject = 0 := by
    simp [targetWeeklyHours, reversedProject_duration]
  refine ⟨reversedProject_duration, htotal, htarget, ?_, ?_, ?_⟩
  · rw [htarget, htotal]
    norm_num
  · simp only [buildTask, htarget]
    norm_num
  · simp only [buildTask, htarget, htotal]
    norm_num

/-- C13, amended: `durationWeeks` is `ceil((endDate - startDate) / 7 days)`
when both dates are present (and valid) and 12 when one is missing;
`targetWeeklyHours` equals `totalHours / durationWeeks` when `durationWeeks`
is positive and 0 when it is zero, negative or `NaN`; and the task's
`targetHoursPerWeek` equals `min(targetWeeklyHours, 0.6 * weeklyCapacity)`.
With `dayHours = 8` the capacity is 40, and 120 planned hours over exactly 10
weeks give `durationWeeks = 10`, `targetWeeklyHours = 12`,
`targetHoursPerWeek = min(12, 24) = 12` and `isLongTerm = false`. -/
theorem target_hours_formula (user : RawUser) (projects : List RawProject)
    (offices : List RawOffice) (now : Int) (i : Nat) (p : RawProject)
    (hp : projects[i]? = some p) :
    (∀ a b, p.startDate = .valid a → p.endDate = .valid b →
      calculateProjectDurationWeeks p
        = some (Int.ceil (((b - a : Int) : ℚ) / (604800000 : ℚ)))) ∧
    (p.startDate = .absent ∨ p.endDate = .absent →
      calculateProjectDurationWeeks p = some 12) ∧
    (∀ w, calculateProjectDurationWeeks p = some w → 0 < w →
      targetWeeklyHours p = projectTotalHours p / (w : ℚ)) ∧
    (∀ w, calculateProjectDurationWeeks p = some w → w ≤ 0 → targetWeeklyHours p = 0) ∧
    (calculateProjectDurationWeeks p = none → targetWeeklyHours p = 0) ∧
    (∃ t, (transformUserToTeamMember user projects offices now).tasks[i]? = some t ∧
      t.targetHoursPerWeek
        = min (targetWeeklyHours p) (6 / 10 * weeklyCapacity user offices)) ∧
    weeklyCapacity sampleUser [mainOffice] = 40 ∧
    calculateProjectDurationWeeks tenWeekProject = some 10 ∧
    targetWeeklyHours tenWeekProject = 12 ∧
    ((transformUserToTeamMember sampleUser [tenWeekProject] [mainOffice] 0).tasks.map
      fun t => (t.targetHoursPerWeek, t.isLongTerm)) = [(12, false)] := by
  have hcap : weeklyCapacity sampleUser [mainOffice] = 40 := by
    norm_num [weeklyCapacity, sampleUser, mainOffice, mainTimetable, JSId.truthy]
  have htotal : projectTotalHours tenWeekProject = 120 := by
    norm_num [projectTotalHours, numOr, tenWeekProject, bareProject]
  have htarget : targetWeeklyHours tenWeekProject = 12 := by
    simp only [targetWeeklyHours, tenWeekProject_duration, htotal]
    norm_num
  refine ⟨?_, ?_, ?_, ?_, ?_, ?_, hcap, tenWeekProject_duration, htarget, ?_⟩
  · intro a b ha hb
    simp [calculateProjectDurationWeeks, ha, hb, JSDate.truthy, JSDate.time, msPerWeek]
  · rintro (h | h) <;> simp [calculateProjectDurationWeeks, h, JSDate.truthy]
  · intro w hw hpos
    simp [targetWeeklyHours, hw, hpos]
  · intro w hw hle
    simp [targetWeeklyHours, hw, not_lt.mpr hle]
  · intro hw
    simp [targetWeeklyHours, hw]
  · refine ⟨_, getElem?_tasks user projects offices now i p hp, ?_⟩
    simp only [buildTask]
    rw [mul_comm]
  · have hlong : isLongTermProject tenWeekProject = false := by
      have h120 : numOr tenWeekProject.plannedHours (numOr tenWeekProject.availableHours 0)
          = 120 := htotal
      simp only [isLongTermProject, h120, tenWeekProject_duration, nanGt]
      norm_num
    simp only [transformUserToTeamMember, buildTasks, mapWithIndex, List.map_cons,
      List.map_nil, buildTask, hcap, htarget, hlong]
    norm_num

/-- C13 witness: the ten-week project as the only project of a user of the
eight-hour office. -/
theorem target_hours_formula_witness :
    ((transformUserToTeamMember sampleUser [tenWeekProject] [mainOffice] 0).tasks[0]?).map
        (fun t => t.targetHoursPerWeek)
      = some (min (targetWeeklyHours tenWeekProject)
          (6 / 10 * weeklyCapacity sampleUser [mainOffice])) := by
  obtain ⟨t, ht, h⟩ := (target_hours_formula sampleUser [tenWeekProject] [mainOffice] 0 0
    tenWeekProject rfl).2.2.2.2.2.1
  rw [ht, Option.map_some', h]

/-- C14, as stated, fails twice: a main timetable whose `dayHours` is the
number 0 gives the capacity 40, not `0 * 5`; and a user whose office id is the
number 0 gets the capacity 40 although the office with id 0 has a main
timetable of six hours. -/
theorem capacity_not_from_falsy_values :
    weeklyCapacity sampleUser [idleOffice] = 40 ∧
    weeklyCapacity sampleUser [idleOffice] ≠ 0 * 5 ∧
    weeklyCapacity zeroOfficeUser [zeroOffice] = 40 ∧
    weeklyCapacity zeroOfficeUser [zeroOffice] ≠ 6 * 5 := by
  have h1 : weeklyCapacity sampleUser [idleOffice] = 40 := by
    norm_num [weeklyCapacity, sampleUser, idleOffice, mainTimetable, JSId.truthy]
  have h2 : weeklyCapacity zeroOfficeUser [zeroOffice] = 40 := by
    norm_num [weeklyCapacity, zeroOfficeUser, sampleUser, zeroOffice, JSId.truthy]
  refine ⟨h1, ?_, h2, ?_⟩
  · rw [h1]
    norm_num
  · rw [h2]
    norm_num

/-- C14, amended: for every user whose office id is truthy and whose office
(the first of the list with that id) has at least one timetable, the main
timetable is the first one flagged `isMain` or, when none is flagged, the
first entry, and the weekly capacity is `parseFloat(dayHours) * 5` of that
timetable when its `dayHours` is truthy, and 40 when it is falsy.  A number
other than 0 gives `dayHours * 5` (a number read back by `parseFloat` being
unchanged); a string that is not empty gives five times what `parseFloat`
reads from it, also for the string `0`; a `dayHours` that is missing, `null`,
the number 0 or the empty string gives 40.  This holds in every number
arithmetic; in exact arithmetic and with numeric `dayHours` the capacity is
the one of `weeklyCapacity`. -/
theorem capacity_parses_day_hours {F : Type} (ops : NumberOps F) (user : RawUser)
    (offices : List OfficeJson) (uo : UserOffice) (o : OfficeJson)
    (timeTables : List TimeTableJson)
    (hoffice : user.office = some uo) (hid : uo.id.truthy = true)
    (hfind : offices.find? (fun office => decide (office.id = uo.id)) = some o)
    (htables : o.timeTables = some timeTables) (hne : timeTables ≠ []) :
    o ∈ offices ∧ o.id = uo.id ∧
    (∃ tt, mainTimetableJson timeTables = some tt ∧
      ((tt.isMain = true ∧ ∃ before after, timeTables = before ++ tt :: after ∧
          ∀ x ∈ before, x.isMain = false) ∨
        ((∀ x ∈ timeTables, x.isMain = false) ∧ timeTables.head? = some tt)) ∧
      (ops.truthyField tt.dayHours = true →
        ops.weeklyCapacity user offices
          = ops.mul (ops.parseFloatField tt.dayHours) (ops.lit 5)) ∧
      (ops.truthyField tt.dayHours = false → ops.weeklyCapacity user offices = ops.lit 40) ∧
      (∀ q, tt.dayHours = .num q → ops.truthy (ops.lit q) = true →
        ops.reparse (ops.lit q) = ops.lit q →
        ops.weeklyCapacity user offices = ops.mul (ops.lit q) (ops.lit 5)) ∧
      (∀ text, tt.dayHours = .str text → text ≠ "" →
        ops.weeklyCapacity user offices = ops.mul (ops.parseFloat text) (ops.lit 5)) ∧
      (tt.dayHours = .undefined ∨ tt.dayHours = .null ∨ tt.dayHours = .str "" ∨
          (∃ q, tt.dayHours = .num q ∧ ops.truthy (ops.lit q) = false) →
        ops.weeklyCapacity user offices = ops.lit 40)) ∧
    (∀ (parseFloat : String → ℚ) (typed : List RawOffice),
      (exactOps parseFloat).weeklyCapacity user (typed.map RawOffice.toJson)
        = weeklyCapacity user typed) := by
  have hmem : o ∈ offices := List.mem_of_find?_eq_some hfind
  have hoid : o.id = uo.id := by simpa using List.find?_some hfind
  have hlen : offices.length > 0 := List.length_pos_of_mem hmem
  have htlen : timeTables.length > 0 := List.length_pos.mpr hne
  have hcap : ∀ tt, mainTimetableJson timeTables = some tt →
      ops.weeklyCapacity user offices
        = if ops.truthyField tt.dayHours then
            ops.mul (ops.parseFloatField tt.dayHours) (ops.lit 5)
          else ops.lit 40 := by
    intro tt htt
    simp [NumberOps.weeklyCapacity, hoffice, hid, hlen, hfind, htables, htlen, htt]
  have hcases : ∀ tt, mainTimetableJson timeTables = some tt →
      (ops.truthyField tt.dayHours = true →
        ops.weeklyCapacity user offices
          = ops.mul (ops.parseFloatField tt.dayHours) (ops.lit 5)) ∧
      (ops.truthyField tt.dayHours = false → ops.weeklyCapacity user offices = ops.lit 40) ∧
      (∀ q, tt.dayHours = .num q → ops.truthy (ops.lit q) = true →
        ops.reparse (ops.lit q) = ops.lit q →
        ops.weeklyCapacity user offices = ops.mul (ops.lit q) (ops.lit 5)) ∧
      (∀ text, tt.dayHours = .str text → text ≠ "" →
        ops.weeklyCapacity user offices = ops.mul (ops.parseFloat text) (ops.lit 5)) ∧
      (tt.dayHours = .undefined ∨ tt.dayHours = .null ∨ tt.dayHours = .str "" ∨
          (∃ q, tt.dayHours = .num q ∧ ops.truthy (ops.lit q) = false) →
        ops.weeklyCapacity user offices = ops.lit 40) := by
    intro tt htt
    refine ⟨?_, ?_, ?_, ?_, ?_⟩
    · intro h
      rw [hcap tt htt, if_pos h]
    · intro h
      rw [hcap tt htt, h]
      rfl
    · intro q hq htruthy hback
      rw [hcap tt htt, hq]
      simp [NumberOps.truthyField, NumberOps.parseFloatField, htruthy, hback]
    · intro text htext hnonempty
      rw [hcap tt htt, htext]
      simp [NumberOps.truthyField, NumberOps.parseFloatField, hnonempty]
    · rintro (h | h | h | ⟨q, h, hfalsy⟩)
      · rw [hcap tt htt, h]
        rfl
      · rw [hcap tt htt, h]
        rfl
      · rw [hcap tt htt, h]
        rfl
      · rw [hcap tt htt, h]
        simp [NumberOps.truthyField, hfalsy]
  refine ⟨hmem, hoid, ?_, fun parseFloat typed => weeklyCapacity_exact parseFloat user typed⟩
  cases hmain : timeTables.find? (fun tt => tt.isMain) with
  | some tt =>
    have htt : mainTimetableJson timeTables = some tt := by simp [mainTimetableJson, hmain]
    refine ⟨tt, htt, Or.inl ?_, hcases tt htt⟩
    obtain ⟨hflag, before, after, hsplit, hbefore⟩ := List.find?_eq_some.mp hmain
    refine ⟨hflag, before, after, hsplit, ?_⟩
    intro x hx
    simpa using hbefore x hx
  | none =>
    obtain ⟨tt, rest, hsplit⟩ := List.exists_cons_of_ne_nil hne
    have hhead : timeTables.head? = some tt := by rw [hsplit]; rfl
    have htt : mainTimetableJson timeTables = some tt := by
      simp [mainTimetableJson, hmain, hhead]
    refine ⟨tt, htt, Or.inr ⟨?_, hhead⟩, hcases tt htt⟩
    intro x hx
    simpa using (List.find?_eq_none.mp hmain) x hx

/-- C14 witness: the user of office `7`, whose main timetable gives `dayHours`
as the string `8`, has the capacity `parseFloat("8") * 5`, which is 40 when
`parseFloat` reads the digits; with the string `0` the capacity is
`parseFloat("0") * 5`, which is 0, not 40. -/
theorem capacity_parses_day_hours_witness :
    (exactOps readDigits).weeklyCapacity sampleUser [textOffice] = readDigits "8" * 5 ∧
    readDigits "8" * 5 = 40 ∧
    (exactOps readDigits).weeklyCapacity sampleUser [zeroTextOffice] = readDigits "0" * 5 ∧
    readDigits "0" * 5 = 0 := by
  have h8 : decodeDigits "8".data = 8 := by decide
  have h0 : decodeDigits "0".data = 0 := by decide
  refine ⟨?_, by simp [readDigits, h8]; norm_num, ?_, by simp [readDigits, h0]⟩
  · obtain ⟨_, _, ⟨tt, htt, _, _, _, _, hcap, _⟩, _⟩ :=
      capacity_parses_day_hours (exactOps readDigits) sampleUser [textOffice]
        { id := .num 7, name := none } textOffice [{ isMain := true, dayHours := .str "8" }]
        rfl (by decide) (by decide) rfl (by simp)
    have h : tt = { isMain := true, dayHours := .str "8" } := by
      have h2 : mainTimetableJson [{ isMain := true, dayHours := .str "8" }]
          = some { isMain := true, dayHours := .str "8" } := rfl
      rw [h2] at htt
      exact (Option.some.inj htt).symm
    exact hcap "8" (by rw [h]) (by decide)
  · obtain ⟨_, _, ⟨tt, htt, _, _, _, _, hcap, _⟩, _⟩ :=
      capacity_parses_day_hours (exactOps readDigits) sampleUser [zeroTextOffice]
        { id := .num 7, name := none } zeroTextOffice [{ isMain := true, dayHours := .str "0" }]
        rfl (by decide) (by decide) rfl (by simp)
    have h : tt = { isMain := true, dayHours := .str "0" } := by
      have h2 : mainTimetableJson [{ isMain := true, dayHours := .str "0" }]
          = some { isMain := true, dayHours := .str "0" } := rfl
      rw [h2] at htt
      exact (Option.some.inj htt).symm
    exact hcap "0" (by rw [h]) (by decide)

/-- C15: `getProjectStatus` returns one of `planned`, `in-progress` and
`completed`: `planned` for a draft whatever the dates; otherwise `completed`
when the end date is present and earlier than now; otherwise `planned` when
the start date is present and later than now; otherwise `in-progress`. -/
theorem getProjectStatus_order (project : RawProject) (now : Int) :
    (getProjectStatus project now = "planned" ∨ getProjectStatus project now = "in-progress" ∨
      getProjectStatus project now = "completed") ∧
    (project.isDraft = true → getProjectStatus project now = "planned") ∧
    (project.isDraft = false → (∃ t, project.endDate = .valid t ∧ t < now) →
      getProjectStatus project now = "completed") ∧
    (project.isDraft = false → (¬ ∃ t, project.endDate = .valid t ∧ t < now) →
      (∃ t, project.startDate = .valid t ∧ now < t) →
      getProjectStatus project now = "planned") ∧
    (project.isDraft = false → (¬ ∃ t, project.endDate = .valid t ∧ t < now) →
      (¬ ∃ t, project.startDate = .valid t ∧ now < t) →
      getProjectStatus project now = "in-progress") := by
  have hend : (project.endDate.truthy &&
      (match project.endDate.time with | some t => decide (t < now) | none => false)) = true ↔
      ∃ t, project.endDate = .valid t ∧ t < now := by
    cases project.endDate <;> simp [JSDate.truthy, JSDate.time]
  have hstart : (project.startDate.truthy &&
      (match project.startDate.time with | some t => decide (t > now) | none => false)) = true ↔
      ∃ t, project.startDate = .valid t ∧ now < t := by
    cases project.startDate <;> simp [JSDate.truthy, JSDate.time]
  unfold getProjectStatus
  refine ⟨?_, ?_, ?_, ?_, ?_⟩
  · split
    · exact Or.inl rfl
    · split
      · exact Or.inr (Or.inr rfl)
      · split
        · exact Or.inl rfl
        · exact Or.inr (Or.inl rfl)
  · intro h
    rw [if_pos h]
  · intro h he
    rw [if_neg (by simp [h]), if_pos (hend.mpr he)]
  · intro h he hs
    rw [if_neg (by simp [h]), if_neg (fun x => he (hend.mp x)), if_pos (hstart.mpr hs)]
  · intro h he hs
    rw [if_neg (by simp [h]), if_neg (fun x => he (hend.mp x)),
      if_neg (fun x => hs (hstart.mp x))]

/-- C16: `transformUserToTeamMember` is a total function of the user, the
project list and the office list (no step of it can fail on a missing
optional field) and builds one task per project.  Missing fields take the
defaults: name `Unknown User`, department `Unknown`, role `Team Member`,
office `Remote`, capacity 40, and per task project `Unnamed Project`,
activity `General Work`, task `Project Tasks`, estimatedHours 0, startWeek
-4, endWeek 20 and a duration computed from 12 weeks (`3 months`); a user
without projects gets an empty task list, scheduled 0 and utilization 0. -/
theorem transform_defaults (user : RawUser) (projects : List RawProject)
    (offices : List RawOffice) (now : Int) :
    (transformUserToTeamMember user projects offices now).id = user.id ∧
    (transformUserToTeamMember user projects offices now).tasks.length = projects.length ∧
    (user.firstName = none → user.lastName = none →
      (transformUserToTeamMember user projects offices now).name = "Unknown User") ∧
    (user.department = none →
      (transformUserToTeamMember user projects offices now).department = "Unknown") ∧
    (user.rol = none →
      (transformUserToTeamMember user projects offices now).role = "Team Member") ∧
    ((∀ uo, user.office = some uo → uo.name = none) →
      (transformUserToTeamMember user projects offices now).office = "Remote") ∧
    (user.office = none →
      (transformUserToTeamMember user projects offices now).capacity = 40) ∧
    (∀ (i : Nat) (p : RawProject), projects[i]? = some p →
      ∃ t : Task, (transformUserToTeamMember user projects offices now).tasks[i]? = some t ∧
        (p.name = none → t.project = "Unnamed Project") ∧
        (p.activities = none → t.activity = "General Work") ∧
        (p.activities = none → p.code = none → t.task = "Project Tasks") ∧
        (p.plannedHours = none → p.availableHours = none → t.estimatedHours = 0) ∧
        (p.startDate = .absent → t.startWeek = some (-4)) ∧
        (p.endDate = .absent → t.endWeek = some 20) ∧
        (p.startDate = .absent ∨ p.endDate = .absent →
          calculateProjectDurationWeeks p = some 12 ∧ t.duration = "3 months")) ∧
    (projects = [] →
      (transformUserToTeamMember user projects offices now).tasks = [] ∧
      (transformUserToTeamMember user projects offices now).scheduled = 0 ∧
      (transformUserToTeamMember user projects offices now).utilization = 0) := by
  refine ⟨rfl, ?_, ?_, ?_, ?_, ?_, ?_, ?_, ?_⟩
  · simp [transformUserToTeamMember, buildTasks, length_mapWithIndex]
  · intro hf hl
    have hname : fullName user = "" :=
      fullName_of_blank user (by rw [hf]; rfl) (by rw [hl]; rfl)
    simp [transformUserToTeamMember, strOr, hname]
  · intro h
    simp [transformUserToTeamMember, strOr, h]
  · intro h
    simp [transformUserToTeamMember, strOr, h]
  · intro h
    cases hoff : user.office with
    | none => simp [transformUserToTeamMember, strOr, hoff]
    | some uo => simp [transformUserToTeamMember, strOr, hoff, h uo hoff]
  · intro h
    simp [transformUserToTeamMember, weeklyCapacity, h]
  · intro i p hp
    refine ⟨_, getElem?_tasks user projects offices now i p hp, ?_, ?_, ?_, ?_, ?_, ?_, ?_⟩
    · intro h
      simp [buildTask, strOr, h]
    · intro h
      simp [buildTask, strOr, h]
    · intro h hc
      simp [buildTask, strOr, h, hc]
    · intro h1 h2
      simp [buildTask, projectTotalHours, numOr, h1, h2]
    · intro h
      simp [buildTask, calculateProjectStartWeek, h, JSDate.truthy]
    · intro h
      simp [buildTask, calculateProjectEndWeek, h, JSDate.truthy]
    · intro h
      exact ⟨duration_of_missing_date p h,
        calculateDuration_of_twelve p (duration_of_missing_date p h)⟩
  · intro h
    subst h
    simp [transformUserToTeamMember, buildTasks, mapWithIndex, scheduledHours, mathRound,
      Int.floor_eq_iff]
    norm_num

/-- C16 witness: a user and a project in which every optional field is missing. -/
theorem transform_defaults_witness :
    (transformUserToTeamMember
      { sampleUser with firstName := none, office := none } [bareProject] [] 0).name
      = "Unknown User" :=
  (transform_defaults { sampleUser with firstName := none, office := none }
    [bareProject] [] 0).2.2.1 rfl rfl

/-- C17, as stated, fails: when every read answers 200 and the body of the
users read is the object `{ result: null }`, the three required reads all
succeed (`fetchUsers` returns the object itself, `data.result || data`), yet
`users.map` throws at line 290 and the load ends in Failed: `loading` is
false, the error is the message of the `TypeError` and the error panel is
rendered. -/
theorem load_fails_on_users_without_array :
    firstRender.authToken = "secret" ∧
    (fetchUsers UsersBody.unwrap "secret" fun _ => nullResultLoad.users).2
      = .ok (.obj [("result", .null)]) ∧
    (fetchProjects Envelope.unwrap "secret" fun _ => nullResultLoad.projects).2 = .ok [] ∧
    (fetchOffices Envelope.unwrap "secret" fun _ => nullResultLoad.offices).2 = .ok [] ∧
    (∀ f, loadRejection "secret" nullResultLoad f = none) ∧
    (loadWorkdeckData firstRender nullResultLoad 0).loading = false ∧
    (loadWorkdeckData firstRender nullResultLoad 0).error
      = some "users.map is not a function" ∧
    (loadWorkdeckData firstRender nullResultLoad 0).lastSync = none ∧
    render (loadWorkdeckData firstRender nullResultLoad 0) = .errorPanel ∧
    ¬ ((loadWorkdeckData firstRender nullResultLoad 0).loading = false ∧
      (loadWorkdeckData firstRender nullResultLoad 0).error = none) := by
  refine ⟨by decide, rfl, rfl, rfl, ?_, by decide, by decide, by decide, by decide, by decide⟩
  intro f
  cases f <;> rfl

/-- C17, amended: with a token present, `loadWorkdeckData` ends in Ready
(`loading` false, `error` null) only if the users, projects and offices reads
all succeed, and it does end in Ready, with the team, the projects, the
departments and the sync time recorded, when they succeed and the users read
delivers an array of user records (the projects and offices reads delivering
arrays of records); Ready is reached exactly then.  When the three reads
succeed but the value of the users read is not an array, the transformation
throws and the load ends in Failed with the message of that `TypeError`.
When a required read fails the load ends in Failed with the message of a
failed required read.  In both Failed cases `loading` is false and the data of
the previous load stay.  The outcome of the current-user read changes
nothing. -/
theorem load_ready_iff_reads_deliver_records (s : Controller) (r : LoadResponses) (now : Int)
    (htoken : s.authToken ≠ "") :
    (∀ users projects offices,
      (fetchUsers UsersBody.unwrap s.authToken fun _ => r.users).2 = .ok (.users users) →
      (fetchProjects Envelope.unwrap s.authToken fun _ => r.projects).2 = .ok projects →
      (fetchOffices Envelope.unwrap s.authToken fun _ => r.offices).2 = .ok offices →
        (loadWorkdeckData s r now).loading = false ∧
        (loadWorkdeckData s r now).error = none ∧
        (loadWorkdeckData s r now).teamData = validTeam users projects offices now ∧
        (loadWorkdeckData s r now).projects = projects ∧
        (loadWorkdeckData s r now).departments = uniqueDepts users ∧
        (loadWorkdeckData s r now).lastSync = some now) ∧
    (∀ value projects offices,
      (fetchUsers UsersBody.unwrap s.authToken fun _ => r.users).2 = .ok value →
      (∀ users, value ≠ .users users) →
      (fetchProjects Envelope.unwrap s.authToken fun _ => r.projects).2 = .ok projects →
      (fetchOffices Envelope.unwrap s.authToken fun _ => r.offices).2 = .ok offices →
        (loadWorkdeckData s r now).loading = false ∧
        (loadWorkdeckData s r now).error = some (usersMapMessage value) ∧
        (loadWorkdeckData s r now).teamData = s.teamData ∧
        (loadWorkdeckData s r now).projects = s.projects ∧
        (loadWorkdeckData s r now).departments = s.departments ∧
        (loadWorkdeckData s r now).lastSync = s.lastSync) ∧
    ((∃ f, loadRejection s.authToken r f ≠ none) →
      (loadWorkdeckData s r now).loading = false ∧
      (∃ f message, loadRejection s.authToken r f = some message ∧
        (loadWorkdeckData s r now).error = some message) ∧
      (loadWorkdeckData s r now).teamData = s.teamData ∧
      (loadWorkdeckData s r now).projects = s.projects ∧
      (loadWorkdeckData s r now).departments = s.departments ∧
      (loadWorkdeckData s r now).lastSync = s.lastSync) ∧
    (((loadWorkdeckData s r now).loading = false ∧ (loadWorkdeckData s r now).error = none) →
      ∀ f, loadRejection s.authToken r f = none) ∧
    (((loadWorkdeckData s r now).loading = false ∧ (loadWorkdeckData s r now).error = none) ↔
      ∃ users projects offices,
        (fetchUsers UsersBody.unwrap s.authToken fun _ => r.users).2 = .ok (.users users) ∧
        (fetchProjects Envelope.unwrap s.authToken fun _ => r.projects).2 = .ok projects ∧
        (fetchOffices Envelope.unwrap s.authToken fun _ => r.offices).2 = .ok offices) ∧
    (∀ other, loadWorkdeckData s { r with currentUser := other } now
      = loadWorkdeckData s r now) := by
  have hok : ∀ users projects offices,
      (fetchUsers UsersBody.unwrap s.authToken fun _ => r.users).2 = .ok (.users users) →
      (fetchProjects Envelope.unwrap s.authToken fun _ => r.projects).2 = .ok projects →
      (fetchOffices Envelope.unwrap s.authToken fun _ => r.offices).2 = .ok offices →
        (loadWorkdeckData s r now).loading = false ∧
        (loadWorkdeckData s r now).error = none ∧
        (loadWorkdeckData s r now).teamData = validTeam users projects offices now ∧
        (loadWorkdeckData s r now).projects = projects ∧
        (loadWorkdeckData s r now).departments = uniqueDepts users ∧
        (loadWorkdeckData s r now).lastSync = some now := by
    intro users projects offices hu hp ho
    rw [loadWorkdeckData_ok s r now users projects offices htoken hu hp ho]
    simp [beginLoad, htoken]
  have hthrow : ∀ value projects offices,
      (fetchUsers UsersBody.unwrap s.authToken fun _ => r.users).2 = .ok value →
      (∀ users, value ≠ .users users) →
      (fetchProjects Envelope.unwrap s.authToken fun _ => r.projects).2 = .ok projects →
      (fetchOffices Envelope.unwrap s.authToken fun _ => r.offices).2 = .ok offices →
        (loadWorkdeckData s r now).loading = false ∧
        (loadWorkdeckData s r now).error = some (usersMapMessage value) ∧
        (loadWorkdeckData s r now).teamData = s.teamData ∧
        (loadWorkdeckData s r now).projects = s.projects ∧
        (loadWorkdeckData s r now).departments = s.departments ∧
        (loadWorkdeckData s r now).lastSync = s.lastSync := by
    intro value projects offices hu hvalue hp ho
    rw [loadWorkdeckData_notArray s r now value projects offices htoken hu hvalue hp ho]
    simp [beginLoad, htoken]
  have herr : (∃ f, loadRejection s.authToken r f ≠ none) →
      (loadWorkdeckData s r now).loading = false ∧
      (∃ f message, loadRejection s.authToken r f = some message ∧
        (loadWorkdeckData s r now).error = some message) ∧
      (loadWorkdeckData s r now).teamData = s.teamData ∧
      (loadWorkdeckData s r now).projects = s.projects ∧
      (loadWorkdeckData s r now).departments = s.departments ∧
      (loadWorkdeckData s r now).lastSync = s.lastSync := by
    rintro ⟨f, hf⟩
    obtain ⟨e, he⟩ := Option.ne_none_iff_exists'.mp hf
    obtain ⟨g, message, hg, hfinal⟩ := loadWorkdeckData_error s r now f e htoken he
    rw [hfinal]
    refine ⟨rfl, ⟨g, message, hg, rfl⟩, ?_, ?_, ?_, ?_⟩ <;> simp [beginLoad, htoken]
  have hnone : ((loadWorkdeckData s r now).loading = false ∧
      (loadWorkdeckData s r now).error = none) →
      ∀ f, loadRejection s.authToken r f = none := by
    rintro ⟨_, herror⟩ f
    by_contra hf
    obtain ⟨_, ⟨_, message, _, hmsg⟩, _⟩ := herr ⟨f, hf⟩
    rw [hmsg] at herror
    exact absurd herror (by simp)
  refine ⟨hok, hthrow, herr, hnone, ?_, ?_⟩
  · constructor
    · intro hready
      obtain ⟨value, projects, offices, hu, hp, ho⟩ :=
        (rejection_eq_none_iff _ _ _).mp (hnone hready)
      by_cases hvalue : ∃ users, value = .users users
      · obtain ⟨users, rfl⟩ := hvalue
        exact ⟨users, projects, offices, hu, hp, ho⟩
      · have hne : ∀ users, value ≠ .users users := fun users h => hvalue ⟨users, h⟩
        have herror := (hthrow value projects offices hu hne hp ho).2.1
        rw [hready.2] at herror
        exact absurd herror (by simp)
    · rintro ⟨users, projects, offices, hu, hp, ho⟩
      exact ⟨(hok users projects offices hu hp ho).1, (hok users projects offices hu hp ho).2.1⟩
  · intro other
    simp only [loadWorkdeckData, if_neg htoken, settleLoad, loadOutcome, promiseAll]
    cases (fetchUsers UsersBody.unwrap s.authToken fun _ => r.users).2 with
    | error e =>
      cases (fetchProjects Envelope.unwrap s.authToken fun _ => r.projects).2 <;>
        cases (fetchOffices Envelope.unwrap s.authToken fun _ => r.offices).2 <;> rfl
    | ok value =>
      cases (fetchProjects Envelope.unwrap s.authToken fun _ => r.projects).2 <;>
        cases (fetchOffices Envelope.unwrap s.authToken fun _ => r.offices).2 <;>
        first
          | rfl
          | (cases value <;> rfl)

/-- C17 witness: after a first render with a stored token, a load whose reads
all succeed with arrays ends in the dashboard. -/
theorem load_ready_iff_reads_deliver_records_witness :
    (loadWorkdeckData firstRender emptyLoad 0).loading = false ∧
    (loadWorkdeckData firstRender emptyLoad 0).error = none :=
  ((load_ready_iff_reads_deliver_records firstRender emptyLoad 0 (by decide)).2.2.2.2.1).mpr
    ⟨[], [], [], rfl, rfl, rfl⟩

/-- C18: when the create-task request of `submitTaskAssignment` fails (no
token, a response that is not ok, or a transport failure), the state is the
one before the submission with one more alert, which carries the error
message: the team, the projects, the departments, the sync time, `loading`
and `error` keep their values, no reload is started, and the assignment
dialog stays open with the same member. -/
theorem failed_assignment_keeps_state {α : Type} (s : Controller) (taskData : TaskData)
    (post : Except String (Response α)) (r : LoadResponses) (now : Int) (member : TeamMember)
    (hselected : s.selectedMemberForAssignment = some member)
    (hfail : s.authToken = "" ∨ (∃ response, post = .ok response ∧ response.ok = false) ∨
      (∃ e, post = .error e)) :
    ∃ message,
      (createTaskRequest s.authToken (fun _ => post) { taskData with userId := member.id }).2
        = .error message ∧
      submitTaskAssignment s taskData post r now
        = { s with alerts := s.alerts ++ ["Error creating task: " ++ message] } ∧
      (submitTaskAssignment s taskData post r now).teamData = s.teamData ∧
      (submitTaskAssignment s taskData post r now).projects = s.projects ∧
      (submitTaskAssignment s taskData post r now).departments = s.departments ∧
      (submitTaskAssignment s taskData post r now).lastSync = s.lastSync ∧
      (submitTaskAssignment s taskData post r now).loading = s.loading ∧
      (submitTaskAssignment s taskData post r now).error = s.error ∧
      (submitTaskAssignment s taskData post r now).pendingLoads = s.pendingLoads ∧
      (submitTaskAssignment s taskData post r now).showAssignTaskModal
        = s.showAssignTaskModal ∧
      (submitTaskAssignment s taskData post r now).selectedMemberForAssignment
        = some member := by
  obtain ⟨message, hmessage⟩ :=
    createTaskRequest_fails s.authToken post { taskData with userId := member.id } hfail
  have hfinal : submitTaskAssignment s taskData post r now
      = { s with alerts := s.alerts ++ ["Error creating task: " ++ message] } := by
    simp only [submitTaskAssignment, hselected, createWorkdeckTask, hmessage]
  refine ⟨message, hmessage, hfinal, ?_⟩
  rw [hfinal]
  exact ⟨rfl, rfl, rfl, rfl, rfl, rfl, rfl, rfl, hselected⟩

/-- C18 witness: a task submitted for Ann from the dashboard, answered 401. -/
theorem failed_assignment_keeps_state_witness :
    (submitTaskAssignment
      (handleAssignTask readyState (transformUserToTeamMember sampleUser [] [] 0))
      designTask (Except.ok unauthorized) emptyLoad 0).alerts
      = ["Error creating task: Authentication failed. Please check your token."] := by
  obtain ⟨message, hmessage, hfinal, _⟩ := failed_assignment_keeps_state
    (handleAssignTask readyState (transformUserToTeamMember sampleUser [] [] 0))
    designTask (Except.ok unauthorized) emptyLoad 0
    (transformUserToTeamMember sampleUser [] [] 0) rfl (Or.inr (Or.inl ⟨_, rfl, rfl⟩))
  have h : (Except.error "Authentication failed. Please check your token." :
      Except String Unit) = .error message := hmessage
  injection h with h
  rw [hfinal, ← h]
  rfl

/-- C19, the code at the failing input: in the Failed state left by a 401 the
token `secret` is held and the error panel is shown; the Update Token action
shows the token form; submitting `secret` there again closes the form and
clears the error, but starts no load: `loading` stays false, no load is
pending and the page rendered is the dashboard, over the data of before the
failure.  The effect of lines 336-340 runs only when `authToken` changes, while
`handleTokenSubmit` relies on it to start the load.  The sibling paths from
the same state do start one: submitting another token, and Retry Connection
(`loadWorkdeckData`), both enter Loading with a load pending. -/
theorem same_token_starts_no_load :
    failedState.authToken = "secret" ∧
    render failedState = .errorPanel ∧
    render (updateToken failedState) = .tokenForm ∧
    (handleTokenSubmit (updateToken failedState) "secret").loading = false ∧
    (handleTokenSubmit (updateToken failedState) "secret").error = none ∧
    (handleTokenSubmit (updateToken failedState) "secret").pendingLoads = [] ∧
    render (handleTokenSubmit (updateToken failedState) "secret") = .dashboard ∧
    (handleTokenSubmit (updateToken failedState) "other").loading = true ∧
    (handleTokenSubmit (updateToken failedState) "other").pendingLoads = ["other"] ∧
    render (handleTokenSubmit (updateToken failedState) "other") = .spinner ∧
    (beginLoad failedState).loading = true ∧
    (beginLoad failedState).pendingLoads = ["secret"] ∧
    render (beginLoad failedState) = .spinner := by
  decide

/-- The two paths of `handleTokenSubmit` on a non-blank token.  When the
trimmed token differs from the token held (in particular when no token is
held) it is stored and the controller enters Loading: `loading` is true, the
error is cleared, the form is closed, the spinner is rendered and a load is
pending with that token, whose four reads carry it as bearer token.  When it
equals the token held, the form is closed and the error cleared, and the
pending loads and `loading` are left as they were. -/
theorem token_submit_starts_load (s : Controller) (token : String)
    (hnonblank : jsTrim token ≠ "") :
    (jsTrim token ≠ s.authToken →
      (handleTokenSubmit s token).authToken = jsTrim token ∧
      (handleTokenSubmit s token).storedToken = jsTrim token ∧
      (handleTokenSubmit s token).loading = true ∧
      (handleTokenSubmit s token).error = none ∧
      (handleTokenSubmit s token).showTokenModal = false ∧
      render (handleTokenSubmit s token) = .spinner ∧
      (handleTokenSubmit s token).pendingLoads = s.pendingLoads ++ [jsTrim token] ∧
      ∀ r : LoadResponses,
        (loadRequests (jsTrim token) r).map (fun q => (q.url, q.headers))
          = [("https://test-api.workdeck.com/queries/users",
              [("Content-Type", "application/json"),
                ("Authorization", "Bearer " ++ jsTrim token)]),
            ("https://test-api.workdeck.com/queries/projects-summary",
              [("Content-Type", "application/json"),
                ("Authorization", "Bearer " ++ jsTrim token)]),
            ("https://test-api.workdeck.com/queries/offices",
              [("Content-Type", "application/json"),
                ("Authorization", "Bearer " ++ jsTrim token)]),
            ("https://test-api.workdeck.com/queries/me",
              [("Content-Type", "application/json"),
                ("Authorization", "Bearer " ++ jsTrim token)])]) ∧
    (s.authToken = "" → jsTrim token ≠ s.authToken) ∧
    (jsTrim token = s.authToken →
      (handleTokenSubmit s token).pendingLoads = s.pendingLoads ∧
      (handleTokenSubmit s token).loading = s.loading ∧
      (handleTokenSubmit s token).showTokenModal = false ∧
      (handleTokenSubmit s token).error = none) := by
  refine ⟨?_, ?_, ?_⟩
  · intro hnew
    have hfinal : handleTokenSubmit s token =
        { s with
          storedToken := jsTrim token
          authToken := jsTrim token
          showTokenModal := false
          error := none
          loading := true
          pendingLoads := s.pendingLoads ++ [jsTrim token] } := by
      simp only [handleTokenSubmit, if_pos hnonblank, tokenEffects, beginLoad]
      rw [if_pos hnew, if_neg hnonblank, if_neg hnonblank]
    rw [hfinal]
    refine ⟨rfl, rfl, rfl, rfl, rfl, ?_, rfl, ?_⟩
    · simp [render, hnonblank]
    · intro r
      have hu : WORKDECK_BASE_URL ++ "/queries/users"
          = "https://test-api.workdeck.com/queries/users" := by decide
      have hp : WORKDECK_BASE_URL ++ "/queries/projects-summary"
          = "https://test-api.workdeck.com/queries/projects-summary" := by decide
      have ho : WORKDECK_BASE_URL ++ "/queries/offices"
          = "https://test-api.workdeck.com/queries/offices" := by decide
      have hm : WORKDECK_BASE_URL ++ "/queries/me"
          = "https://test-api.workdeck.com/queries/me" := by decide
      simp only [loadRequests, fetchUsers, fetchProjects, fetchOffices, fetchMyUser,
        readOperation_requests _ _ _ _ hnonblank, hu, hp, ho, hm, List.cons_append,
        List.nil_append, List.map_cons, List.map_nil]
  · intro hempty hsame
    rw [hempty] at hsame
    exact hnonblank hsame
  · intro hsame
    have hfinal : handleTokenSubmit s token =
        { s with
          storedToken := jsTrim token
          authToken := jsTrim token
          showTokenModal := false
          error := none } := by
      simp only [handleTokenSubmit, if_pos hnonblank]
      rw [if_neg (not_not.mpr hsame)]
    rw [hfinal]
    exact ⟨rfl, rfl, rfl, rfl⟩

/-- A token typed into the form shown when no token is stored starts a load. -/
theorem token_submit_starts_load_witness :
    render (mount none) = .tokenForm ∧
    render (handleTokenSubmit (mount none) " secret ") = .spinner ∧
    (handleTokenSubmit (mount none) " secret ").pendingLoads = ["secret"] := by
  have h := (token_submit_starts_load (mount none) " secret " (by decide)).1 (by decide)
  exact ⟨by decide, h.2.2.2.2.2.1, h.2.2.2.2.2.2.1⟩

/-- C20: for every project id that is a string (of any length) or a number,
`getProjectColor` returns one of the 12 entries of the palette.  The hash is
the fold `h <- (31 * h + charCode)` wrapped to a signed 32-bit integer,
starting from 0, over the code units of the string form of the id; it lies in
the signed 32-bit range and the index `|h| mod 12` lies in 0..11, also for
`h = -2^31`, where it is 8. -/
theorem getProjectColor_in_palette (text : String) (n : Int) :
    (∀ (h : Int) (code : Nat), hashStep h code = toInt32 (31 * h + code)) ∧
    hashString text
      = (charCodes text).foldl (fun (h : Int) (code : Nat) => toInt32 (31 * h + code)) 0 ∧
    (-(2 ^ 31) ≤ hashString text ∧ hashString text < 2 ^ 31) ∧
    colors.length = 12 ∧
    (hashString text).natAbs % 12 < 12 ∧
    (∃ color ∈ colors, getProjectColor (.str text) = some color ∧
      colors[(hashString text).natAbs % 12]? = some color) ∧
    getProjectColor (.num n) = getProjectColor (.str (numberToString n)) ∧
    (∃ color ∈ colors, getProjectColor (.num n) = some color) ∧
    toInt32 (-(2 ^ 31)) = -(2 ^ 31) ∧
    colors.get? ((-(2 ^ 31) : Int).natAbs % colors.length) = some "bg-orange-600" := by
  have hstep : hashStep = fun (h : Int) (code : Nat) => toInt32 (31 * h + code) := by
    funext h code
    exact hashStep_eq h code
  have hcolor : ∀ t : String, ∃ color ∈ colors, getProjectColor (.str t) = some color ∧
      colors[(hashString t).natAbs % 12]? = some color := by
    intro t
    obtain ⟨color, hmem, hget, _⟩ := color_of_hash (hashString t)
    refine ⟨color, hmem, ?_, ?_⟩
    · simp only [getProjectColor, projectHash]
      exact hget
    · rw [← List.get?_eq_getElem?]
      exact hget
  refine ⟨hashStep_eq, ?_, ?_, rfl, Nat.mod_lt _ (by norm_num), hcolor text, rfl, ?_, ?_, ?_⟩
  · unfold hashString
    rw [hstep]
  · exact foldl_hashStep_range _ 0 (by norm_num)
  · obtain ⟨color, hmem, hget, _⟩ := hcolor (numberToString n)
    exact ⟨color, hmem, hget⟩
  · decide
  · decide

/-- C21: when every user's department is missing, empty or white space only,
a load that succeeds leaves the department list `General`, so the filter
offers `all` and `General` only; no stored team member has the department
`General` (each has `Unknown` or the blank string of its user), so selecting
`General` shows no member, while `all` shows the whole team. -/
theorem general_filter_shows_nobody (s : Controller) (r : LoadResponses) (now : Int)
    (users : List RawUser) (projects : List RawProject) (offices : List RawOffice)
    (htoken : s.authToken ≠ "")
    (hu : (fetchUsers UsersBody.unwrap s.authToken fun _ => r.users).2 = .ok (.users users))
    (hp : (fetchProjects Envelope.unwrap s.authToken fun _ => r.projects).2 = .ok projects)
    (ho : (fetchOffices Envelope.unwrap s.authToken fun _ => r.offices).2 = .ok offices)
    (hblank : ∀ u ∈ users, isBlank u.department = true) :
    (loadWorkdeckData s r now).departments = ["General"] ∧
    departmentOptions (loadWorkdeckData s r now) = ["all", "General"] ∧
    (loadWorkdeckData s r now).teamData = validTeam users projects offices now ∧
    (∀ m ∈ (loadWorkdeckData s r now).teamData,
      m.department ≠ "General" ∧
      (m.department = "Unknown" ∨
        ∃ u ∈ users, u.department = some m.department ∧
          isBlank (some m.department) = true)) ∧
    filteredTeamMembers (setSelectedDepartment (loadWorkdeckData s r now) "General") = [] ∧
    filteredTeamMembers (setSelectedDepartment (loadWorkdeckData s r now) "all")
      = (loadWorkdeckData s r now).teamData := by
  have hfinal := loadWorkdeckData_ok s r now users projects offices htoken hu hp ho
  have hdepts : (loadWorkdeckData s r now).departments = ["General"] := by
    rw [hfinal]
    show uniqueDepts users = ["General"]
    rw [uniqueDepts_eq, if_pos ((nonBlankDepartments_eq_nil_iff users).mpr hblank)]
  have hteam : (loadWorkdeckData s r now).teamData = validTeam users projects offices now := by
    rw [hfinal]
  have hmembers : ∀ m ∈ validTeam users projects offices now,
      m.department ≠ "General" ∧
      (m.department = "Unknown" ∨
        ∃ u ∈ users, u.department = some m.department ∧
          isBlank (some m.department) = true) := by
    intro m hm
    have hm2 : m ∈ transformedTeam users projects offices now :=
      (List.mem_filter.mp hm).1
    simp only [transformedTeam, List.mem_map] at hm2
    obtain ⟨u, hu2, rfl⟩ := hm2
    obtain ⟨hne, hcases⟩ :=
      department_of_blank u (userProjects u projects) offices now (hblank u hu2)
    refine ⟨hne, ?_⟩
    rcases hcases with h | ⟨h1, h2⟩
    · exact Or.inl h
    · exact Or.inr ⟨u, hu2, h1, h2⟩
  refine ⟨hdepts, ?_, hteam, ?_, ?_, ?_⟩
  · simp [departmentOptions, hdepts]
  · rw [hteam]
    exact hmembers
  · simp only [filteredTeamMembers, setSelectedDepartment, hteam]
    rw [List.filter_eq_nil_iff]
    intro m hm
    have hne := (hmembers m hm).1
    simp [hne]
  · simp [filteredTeamMembers, setSelectedDepartment]

/-- C21 witness: a first load of two users, one without department and one
whose department is white space. -/
theorem general_filter_shows_nobody_witness :
    filteredTeamMembers (setSelectedDepartment
      (loadWorkdeckData firstRender blankDepartmentsLoad 0) "General") = [] :=
  (general_filter_shows_nobody firstRender blankDepartmentsLoad 0
    [sampleUser, { sampleUser with department := some "  " }] [] [] (by decide) rfl rfl rfl
    (by decide)).2.2.2.2.1

/-- C22: for every user and every list of associated projects (also with
repeated project ids or ids that contain `-`), the member's task list has
exactly one task per project, in the order of the projects, the task at index
`i` carrying the id made of the user id, the project id and `i`; and the task
ids of the member are pairwise distinct. -/
theorem task_ids_distinct (user : RawUser) (projects : List RawProject)
    (offices : List RawOffice) (now : Int) :
    (transformUserToTeamMember user projects offices now).tasks.length = projects.length ∧
    (∀ (i : Nat) (p : RawProject), projects[i]? = some p →
      ∃ t : Task, (transformUserToTeamMember user projects offices now).tasks[i]? = some t ∧
        t.id = user.id.toStr ++ "-" ++ p.id.toStr ++ "-" ++ numberToString (i : Int) ∧
        t.project = strOr p.name "Unnamed Project" ∧
        t.totalProjectHours = projectTotalHours p ∧
        t.status = getProjectStatus p now) ∧
    ((transformUserToTeamMember user projects offices now).tasks.map fun t => t.id).Nodup := by
  have hlen : (transformUserToTeamMember user projects offices now).tasks.length
      = projects.length := by
    simp [transformUserToTeamMember, buildTasks, length_mapWithIndex]
  refine ⟨hlen, ?_, ?_⟩
  · intro i p hp
    exact ⟨_, getElem?_tasks user projects offices now i p hp, rfl, rfl, rfl, rfl⟩
  · rw [List.nodup_iff_getElem?_ne_getElem?]
    intro i j hij hj
    rw [List.length_map, hlen] at hj
    have hi : i < projects.length := lt_trans hij hj
    rw [List.getElem?_map, List.getElem?_map,
      getElem?_tasks user projects offices now i projects[i] (List.getElem?_eq_getElem hi),
      getElem?_tasks user projects offices now j projects[j] (List.getElem?_eq_getElem hj)]
    simp only [Option.map_some', ne_eq, Option.some.injEq]
    exact buildTask_id_ne user _ now _ _ i j (Nat.ne_of_lt hij)

/-- C22 witness: the same project twice, under the id `a-1` and under `a`. -/
theorem task_ids_distinct_witness :
    ((transformUserToTeamMember sampleUser
      [{ bareProject with id := .str "a-1" }, { bareProject with id := .str "a-1" },
        { bareProject with id := .str "a" }] [] 0).tasks.map fun t => t.id)
      = ["u1-a-1-0", "u1-a-1-1", "u1-a-2"] ∧
    ((transformUserToTeamMember sampleUser
      [{ bareProject with id := .str "a-1" }, { bareProject with id := .str "a-1" },
        { bareProject with id := .str "a" }] [] 0).tasks.map fun t => t.id).Nodup :=
  ⟨by decide, (task_ids_distinct sampleUser
    [{ bareProject with id := .str "a-1" }, { bareProject with id := .str "a-1" },
      { bareProject with id := .str "a" }] [] 0).2.2⟩

/-- C23: for every project whose `durationWeeks` is the integer `w`,
`calculateDuration` returns `TBD` exactly when `w <= 1`, `<w> weeks` exactly
when `2 <= w <= 4`, and `<ceil(w / 4.33)> months` with at least 2 months
exactly when `w >= 5`; a project with a missing start or end date has
`w = 12`, the duration `3 months`, and is long-term exactly when its total
hours exceed 200. -/
theorem calculateDuration_cases (project : RawProject) (w : Int)
    (hw : calculateProjectDurationWeeks project = some w) :
    (calculateDuration project = "TBD" ↔ w ≤ 1) ∧
    (calculateDuration project = numberToString w ++ " weeks" ↔ (2 ≤ w ∧ w ≤ 4)) ∧
    ((calculateDuration project
        = numberToString (Int.ceil ((w : ℚ) / (433 / 100))) ++ " months" ∧
      2 ≤ Int.ceil ((w : ℚ) / (433 / 100))) ↔ 5 ≤ w) ∧
    (∀ q : RawProject, q.startDate = .absent ∨ q.endDate = .absent →
      calculateProjectDurationWeeks q = some 12 ∧
      calculateDuration q = "3 months" ∧
      (isLongTermProject q = true ↔ projectTotalHours q > 200)) := by
  have hcases := calculateDuration_of_weeks project w hw
  have hmonths : 2 ≤ Int.ceil ((w : ℚ) / (433 / 100)) ↔ 5 ≤ w := by
    rw [← months_gt_one_iff]
    omega
  refine ⟨?_, ?_, ?_, ?_⟩
  · rw [hcases]
    by_cases h5 : 5 ≤ w
    · rw [if_pos h5]
      constructor
      · intro h
        exact absurd h (months_ne_tbd _)
      · intro h
        omega
    · rw [if_neg h5]
      by_cases h2 : 2 ≤ w
      · rw [if_pos h2]
        constructor
        · intro h
          exact absurd h (weeks_ne_tbd _)
        · intro h
          omega
      · rw [if_neg h2]
        constructor
        · intro _
          omega
        · intro _
          rfl
  · rw [hcases]
    by_cases h5 : 5 ≤ w
    · rw [if_pos h5]
      constructor
      · intro h
        exact absurd h (months_ne_weeks _ _)
      · intro h
        omega
    · rw [if_neg h5]
      by_cases h2 : 2 ≤ w
      · rw [if_pos h2]
        constructor
        · intro _
          omega
        · intro _
          rfl
      · rw [if_neg h2]
        constructor
        · intro h
          exact absurd h.symm (weeks_ne_tbd _)
        · intro h
          omega
  · constructor
    · rintro ⟨_, h⟩
      exact hmonths.mp h
    · intro h5
      refine ⟨?_, hmonths.mpr h5⟩
      rw [hcases, if_pos h5]
  · intro q hq
    have h12 := duration_of_missing_date q hq
    refine ⟨h12, calculateDuration_of_twelve q h12, ?_⟩
    simp only [isLongTermProject, h12, nanGt, projectTotalHours]
    simp

/-- C23 witness: a project of ten weeks lasts `3 months`. -/
theorem calculateDuration_cases_witness :
    calculateDuration tenWeekProject
      = numberToString (Int.ceil (((10 : Int) : ℚ) / (433 / 100))) ++ " months" :=
  (((calculateDuration_cases tenWeekProject 10 tenWeekProject_duration).2.2.1).mpr
    (by norm_num)).1

end ResourcePlanner
